import Mathlib

/-!
A shallow embedding of the referential-integrity engine of a personal
library cataloguing application (Electron + better-sqlite3).

The SQLite database is modelled as explicit lists of rows; SQL statements
are translated one-for-one:
  * `SELECT ... WHERE id = ?`            becomes `List.find?`
  * `SELECT COUNT(*) ... WHERE c = ?`    becomes `(List.filter _).length`
  * `DELETE ... WHERE c = ?`             becomes `List.filter` (removing rows)
  * `LEFT JOIN ... WHERE x IS NULL`      becomes a filter by non-membership
Throwing code is modelled with `Except String`; a better-sqlite3
`transaction` rolls back on a throw, which the `Except` style captures
(an error returns no successor state).

Schema-level behaviour folded into the row-delete helpers (the schema in
electron/database/migrations.ts declares them):
  * `book_authors`, `book_genres`, `book_topics`, `series_authors` are
    `ON DELETE CASCADE` from both sides;
  * `books.series_id` is `ON DELETE SET NULL`;
  * `books.publisher_id` / `books.category_id` are `ON DELETE RESTRICT`
    (every call site deletes a publisher/category only when its book
    count is zero, so the restriction never fires and is not modelled
    as a failure);
  * `PRAGMA foreign_keys = ON`, so inserts with dangling references and
    duplicate primary keys fail; the create helpers model this with
    explicit checks returning an error.
Descriptive scalar columns that no claim mentions (isbn, pages, bio,
timestamps, colours, ...) are projected away; rows keep their key
columns and display names.  Repository `create` methods mint a UUID when
no id is supplied; every modelled call site supplies the id, so the
helpers take the id as an explicit argument.
-/

set_option autoImplicit false

deriving instance DecidableEq for Except

/-- A primary row reduced to its stable external identifier and display
name (authors, publishers, series, genres, topics, categories). -/
structure EntityRow where
  id : String
  name : String
deriving DecidableEq, Repr

/-- A row of the `books` table (key columns and title only). -/
structure BookRow where
  id : String
  title : String
  publisherId : String
  seriesId : Option String
  categoryId : String
deriving DecidableEq, Repr

/-- The whole SQLite store: six primary tables and four junction tables.
Junction rows are `(book_id, x_id)` resp. `(series_id, author_id)`. -/
structure DB where
  books : List BookRow
  authors : List EntityRow
  publishers : List EntityRow
  series : List EntityRow
  genres : List EntityRow
  topics : List EntityRow
  categories : List EntityRow
  bookAuthors : List (String × String)
  bookGenres : List (String × String)
  bookTopics : List (String × String)
  seriesAuthors : List (String × String)
deriving DecidableEq, Repr

namespace DB

/-- `SELECT COUNT(*) FROM book_authors WHERE author_id = ?` -/
def authorBookCount (db : DB) (authorId : String) : Nat :=
  (db.bookAuthors.filter (fun ba => ba.2 = authorId)).length

/-- `SELECT COUNT(*) FROM books WHERE publisher_id = ?` -/
def publisherBookCount (db : DB) (publisherId : String) : Nat :=
  (db.books.filter (fun b => b.publisherId = publisherId)).length

/-- `SELECT COUNT(*) FROM books WHERE series_id = ?` -/
def seriesBookCount (db : DB) (seriesId : String) : Nat :=
  (db.books.filter (fun b => b.seriesId = some seriesId)).length

/-- `SELECT COUNT(*) FROM books WHERE category_id = ?` -/
def categoryBookCount (db : DB) (categoryId : String) : Nat :=
  (db.books.filter (fun b => b.categoryId = categoryId)).length

/-- `SELECT COUNT(*) FROM series_authors WHERE series_id = ?` -/
def seriesAuthorCount (db : DB) (seriesId : String) : Nat :=
  (db.seriesAuthors.filter (fun sa => sa.1 = seriesId)).length

/-- `DELETE FROM books WHERE id = ?` together with the `ON DELETE
CASCADE` removal of the book's junction rows (the repositories also
delete those junction rows explicitly before the book row; the net
effect is the same). -/
def deleteBookRow (db : DB) (id : String) : DB :=
  { db with
    books := db.books.filter (fun b => b.id ≠ id)
    bookAuthors := db.bookAuthors.filter (fun ba => ba.1 ≠ id)
    bookGenres := db.bookGenres.filter (fun bg => bg.1 ≠ id)
    bookTopics := db.bookTopics.filter (fun bt => bt.1 ≠ id) }

/-- `DELETE FROM authors WHERE id = ?` together with the cascade removal
of the author's `book_authors` and `series_authors` rows. -/
def deleteAuthorRow (db : DB) (id : String) : DB :=
  { db with
    authors := db.authors.filter (fun a => a.id ≠ id)
    bookAuthors := db.bookAuthors.filter (fun ba => ba.2 ≠ id)
    seriesAuthors := db.seriesAuthors.filter (fun sa => sa.2 ≠ id) }

/-- `DELETE FROM publishers WHERE id = ?` (call sites guarantee no book
still references the publisher, so `ON DELETE RESTRICT` never fires). -/
def deletePublisherRow (db : DB) (id : String) : DB :=
  { db with publishers := db.publishers.filter (fun p => p.id ≠ id) }

/-- `DELETE FROM series WHERE id = ?` together with the cascade removal
of its `series_authors` rows and the `ON DELETE SET NULL` action on
`books.series_id`. -/
def deleteSeriesRow (db : DB) (id : String) : DB :=
  { db with
    series := db.series.filter (fun s => s.id ≠ id)
    seriesAuthors := db.seriesAuthors.filter (fun sa => sa.1 ≠ id)
    books := db.books.map (fun b =>
      if b.seriesId = some id then { b with seriesId := none } else b) }

end DB

/-- The `orphanedAuthors` query shared by `BookRepository.delete` and
`BookRepository.checkDeleteImpact` (identical SQL text in both):
authors joined to the book's `book_authors` rows whose total book-link
count is exactly 1. -/
def bookOrphanedAuthors (db : DB) (bookId : String) : List EntityRow :=
  (db.bookAuthors.filter (fun ba => ba.1 = bookId)).filterMap (fun ba =>
    match db.authors.find? (fun a => a.id = ba.2) with
    | some a => if db.authorBookCount a.id = 1 then some ⟨a.id, a.name⟩ else none
    | none => none)

/-- The orphaned-publisher computation shared by `BookRepository.delete`
and `BookRepository.checkDeleteImpact`: the book's publisher when its
total book count is exactly 1 (and the publisher row resolves). -/
def bookOrphanedPublisher (db : DB) (book : BookRow) : Option EntityRow :=
  if db.publisherBookCount book.publisherId = 1 then
    (db.publishers.find? (fun p => p.id = book.publisherId)).map
      (fun p => ⟨p.id, p.name⟩)
  else none

/-- The orphaned-series computation shared by `BookRepository.delete`
and `BookRepository.checkDeleteImpact`: the book's series (when it has
one) when its total book count is exactly 1. -/
def bookOrphanedSeries (db : DB) (book : BookRow) : Option EntityRow :=
  match book.seriesId with
  | some sid =>
      if db.seriesBookCount sid = 1 then
        (db.series.find? (fun s => s.id = sid)).map (fun s => ⟨s.id, s.name⟩)
      else none
  | none => none

/-- Result shape of `checkDeleteImpact` / `checkUpdateImpact`. -/
structure ImpactReport where
  orphanedAuthors : List EntityRow
  orphanedPublisher : Option EntityRow
  orphanedSeries : Option EntityRow
  hasImpact : Bool
deriving DecidableEq, Repr

/-- The empty report returned when the book id does not resolve. -/
def ImpactReport.empty : ImpactReport :=
  { orphanedAuthors := [], orphanedPublisher := none,
    orphanedSeries := none, hasImpact := false }

/-- Input shape for creating/updating a book (`BookInput`); descriptive
scalar fields are projected away.  `publisherId` is a required string
(the code tests it for JS truthiness, i.e. non-emptiness). -/
structure BookInput where
  title : String
  publisherId : String
  seriesId : Option String
  categoryId : String
  authorIds : List String
  genreIds : List String
  topicIds : List String
deriving DecidableEq, Repr

namespace BookRepository

/-- `BookRepository.checkDeleteImpact` (importExportService.ts, lines
566-618): what would be orphaned if this book were deleted.  A missing
book id yields the empty report, not an error. -/
def checkDeleteImpact (db : DB) (id : String) : ImpactReport :=
  match db.books.find? (fun b => b.id = id) with
  | none => ImpactReport.empty
  | some book =>
      let orphanedAuthors := bookOrphanedAuthors db id
      let orphanedPublisher := bookOrphanedPublisher db book
      let orphanedSeries := bookOrphanedSeries db book
      { orphanedAuthors := orphanedAuthors
        orphanedPublisher := orphanedPublisher
        orphanedSeries := orphanedSeries
        hasImpact := !orphanedAuthors.isEmpty || orphanedPublisher.isSome ||
          orphanedSeries.isSome }

/-- `SELECT author_id FROM book_authors WHERE book_id = ?` -/
def currentAuthorIds (db : DB) (bookId : String) : List String :=
  (db.bookAuthors.filter (fun ba => ba.1 = bookId)).map (fun ba => ba.2)

/-- `BookRepository.checkUpdateImpact` (importExportService.ts, lines
624-696): what would be orphaned if this book were updated to `input`.
Orphan risk is evaluated only for removed authors, and for the old
publisher/series only when the corresponding id actually changes. -/
def checkUpdateImpact (db : DB) (id : String) (input : BookInput) : ImpactReport :=
  match db.books.find? (fun b => b.id = id) with
  | none => ImpactReport.empty
  | some book =>
      let removedAuthorIds :=
        (currentAuthorIds db id).filter (fun aid => !input.authorIds.contains aid)
      let orphanedAuthors := removedAuthorIds.filterMap (fun aid =>
        if db.authorBookCount aid = 1 then
          (db.authors.find? (fun a => a.id = aid)).map (fun a => ⟨a.id, a.name⟩)
        else none)
      let orphanedPublisher :=
        if input.publisherId ≠ "" ∧ input.publisherId ≠ book.publisherId then
          if db.publisherBookCount book.publisherId = 1 then
            (db.publishers.find? (fun p => p.id = book.publisherId)).map
              (fun p => ⟨p.id, p.name⟩)
          else none
        else none
      let orphanedSeries :=
        match book.seriesId with
        | some sid =>
            if input.seriesId ≠ some sid then
              if db.seriesBookCount sid = 1 then
                (db.series.find? (fun s => s.id = sid)).map
                  (fun s => ⟨s.id, s.name⟩)
              else none
            else none
        | none => none
      { orphanedAuthors := orphanedAuthors
        orphanedPublisher := orphanedPublisher
        orphanedSeries := orphanedSeries
        hasImpact := !orphanedAuthors.isEmpty || orphanedPublisher.isSome ||
          orphanedSeries.isSome }

/-- The blocking error message built by `BookRepository.delete` when
orphans exist and cascade was not requested. -/
def blockedMessage (orphanedAuthors : List EntityRow)
    (orphanedPublisher orphanedSeries : Option EntityRow) : String :=
  let problems : List String :=
    (if !orphanedAuthors.isEmpty then
      ["Author(s) \"" ++ String.intercalate ", " (orphanedAuthors.map EntityRow.name) ++
        "\" would have no books"] else []) ++
    (match orphanedPublisher with
     | some p => ["Publisher \"" ++ p.name ++ "\" would have no books"]
     | none => []) ++
    (match orphanedSeries with
     | some s => ["Series \"" ++ s.name ++ "\" would have no books"]
     | none => [])
  "Cannot delete this book because it would violate business rules:\n• " ++
    String.intercalate "\n• " problems ++
    "\n\nPlease reassign these entities to other books first, or delete the book with the \"Also delete orphaned entities\" option."

/-- The cascade tail of `BookRepository.delete` / `BookRepository.update`:
delete each would-be-orphan author (with its series links), the would-be
orphan publisher and the would-be orphan series. -/
def cascadeOrphans (db : DB) (orphanedAuthors : List EntityRow)
    (orphanedPublisher orphanedSeries : Option EntityRow) : DB :=
  let db1 := orphanedAuthors.foldl (fun d a => d.deleteAuthorRow a.id) db
  let db2 := match orphanedPublisher with
    | some p => db1.deletePublisherRow p.id
    | none => db1
  match orphanedSeries with
  | some s => db2.deleteSeriesRow s.id
  | none => db2

/-- `BookRepository.delete` (importExportService.ts, lines 470-561): the
two-phase delete.  Recomputes the same impact queries, blocks with an
enumerating error when impact exists and `cleanupOrphans` is false,
otherwise deletes the book (and, on cascade, the identified orphans)
inside one transaction. -/
def delete (db : DB) (id : String) (cleanupOrphans : Bool) : Except String DB :=
  match db.books.find? (fun b => b.id = id) with
  | none => .error ("Book with id " ++ id ++ " not found")
  | some book =>
      let orphanedAuthors := bookOrphanedAuthors db id
      let orphanedPublisher := bookOrphanedPublisher db book
      let orphanedSeries := bookOrphanedSeries db book
      if !cleanupOrphans ∧ (!orphanedAuthors.isEmpty ∨ orphanedPublisher.isSome ∨
          orphanedSeries.isSome) then
        .error (blockedMessage orphanedAuthors orphanedPublisher orphanedSeries)
      else
        let db1 := db.deleteBookRow id
        if cleanupOrphans then
          .ok (cascadeOrphans db1 orphanedAuthors orphanedPublisher orphanedSeries)
        else
          .ok db1

/-- `BookRepository.update` (importExportService.ts, lines 360-447):
computes the update impact, rewrites the book row and all of its link
rows (replace-all semantics), and — only when the caller opted in —
cascade-deletes the identified orphans.  It never blocks on impact.
Foreign-key and primary-key constraint failures on the rewritten row and
links abort the transaction. -/
def update (db : DB) (id : String) (input : BookInput) (cleanupOrphans : Bool) :
    Except String DB :=
  let impact := checkUpdateImpact db id input
  match db.books.find? (fun b => b.id = id) with
  | none => .error ("Book with id " ++ id ++ " not found")
  | some _ =>
      if !db.publishers.any (fun p => p.id = input.publisherId) then
        .error "FOREIGN KEY constraint failed"
      else if !db.categories.any (fun c => c.id = input.categoryId) then
        .error "FOREIGN KEY constraint failed"
      else if (match input.seriesId with
        | some sid => !db.series.any (fun s => s.id = sid)
        | none => false) then
        .error "FOREIGN KEY constraint failed"
      else if !input.authorIds.Nodup ∨
          input.authorIds.any (fun aid => !db.authors.any (fun a => a.id = aid)) then
        .error "constraint failed on book_authors"
      else if !input.genreIds.Nodup ∨
          input.genreIds.any (fun gid => !db.genres.any (fun g => g.id = gid)) then
        .error "constraint failed on book_genres"
      else if !input.topicIds.Nodup ∨
          input.topicIds.any (fun tid => !db.topics.any (fun t => t.id = tid)) then
        .error "constraint failed on book_topics"
      else
        let db1 := { db with
          books := db.books.map (fun b =>
            if b.id = id then
              { b with
                title := input.title
                publisherId := input.publisherId
                seriesId := input.seriesId
                categoryId := input.categoryId }
            else b)
          bookAuthors := db.bookAuthors.filter (fun ba => ba.1 ≠ id) ++
            input.authorIds.map (fun aid => (id, aid))
          bookGenres := db.bookGenres.filter (fun bg => bg.1 ≠ id) ++
            input.genreIds.map (fun gid => (id, gid))
          bookTopics := db.bookTopics.filter (fun bt => bt.1 ≠ id) ++
            input.topicIds.map (fun tid => (id, tid)) }
        if cleanupOrphans ∧ impact.hasImpact then
          .ok (cascadeOrphans db1 impact.orphanedAuthors impact.orphanedPublisher
            impact.orphanedSeries)
        else
          .ok db1

/-- `BookRepository.create` (importExportService.ts, lines 298-358) with
the id passed explicitly (all modelled call sites supply it): inserts
the book row and its link rows, failing on any constraint violation. -/
def create (db : DB) (id : String) (input : BookInput) : Except String DB :=
  if db.books.any (fun b => b.id = id) then
    .error "UNIQUE constraint failed: books.id"
  else if !db.publishers.any (fun p => p.id = input.publisherId) then
    .error "FOREIGN KEY constraint failed"
  else if !db.categories.any (fun c => c.id = input.categoryId) then
    .error "FOREIGN KEY constraint failed"
  else if (match input.seriesId with
    | some sid => !db.series.any (fun s => s.id = sid)
    | none => false) then
    .error "FOREIGN KEY constraint failed"
  else if !input.authorIds.Nodup ∨
      input.authorIds.any (fun aid => !db.authors.any (fun a => a.id = aid)) then
    .error "constraint failed on book_authors"
  else if !input.genreIds.Nodup ∨
      input.genreIds.any (fun gid => !db.genres.any (fun g => g.id = gid)) then
    .error "constraint failed on book_genres"
  else if !input.topicIds.Nodup ∨
      input.topicIds.any (fun tid => !db.topics.any (fun t => t.id = tid)) then
    .error "constraint failed on book_topics"
  else
    .ok { db with
      books := db.books ++ [⟨id, input.title, input.publisherId, input.seriesId,
        input.categoryId⟩]
      bookAuthors := db.bookAuthors ++ input.authorIds.map (fun aid => (id, aid))
      bookGenres := db.bookGenres ++ input.genreIds.map (fun gid => (id, gid))
      bookTopics := db.bookTopics ++ input.topicIds.map (fun tid => (id, tid)) }

end BookRepository

namespace AuthorRepository

/-- `AuthorRepository.delete` (src/unnamed/part_008, lines 46-66): blocks
only when the author still has book links; otherwise removes the
author's series links and the author row.  The sole-series-author rule
is not checked here. -/
def delete (db : DB) (id : String) : Except String DB :=
  let bookCount := db.authorBookCount id
  if bookCount > 0 then
    .error ("Cannot delete author: they have " ++ toString bookCount ++
      " book(s) associated. Remove the author from all books first, or delete those books.")
  else if db.authors.any (fun a => a.id = id) then
    .ok (db.deleteAuthorRow id)
  else
    .error ("Author with id " ++ id ++ " not found")

/-- `AuthorRepository.create` with the id passed explicitly. -/
def create (db : DB) (id name : String) : Except String DB :=
  if db.authors.any (fun a => a.id = id) then
    .error "UNIQUE constraint failed: authors.id"
  else
    .ok { db with authors := db.authors ++ [⟨id, name⟩] }

end AuthorRepository

namespace PublisherRepository

/-- `PublisherRepository.delete`: blocks when the publisher still has
books; otherwise removes the row. -/
def delete (db : DB) (id : String) : Except String DB :=
  let bookCount := db.publisherBookCount id
  if bookCount > 0 then
    .error ("Cannot delete publisher: it has " ++ toString bookCount ++
      " book(s) associated with it")
  else if db.publishers.any (fun p => p.id = id) then
    .ok (db.deletePublisherRow id)
  else
    .error ("Publisher with id " ++ id ++ " not found")

/-- `PublisherRepository.create` with the id passed explicitly. -/
def create (db : DB) (id name : String) : Except String DB :=
  if db.publishers.any (fun p => p.id = id) then
    .error "UNIQUE constraint failed: publishers.id"
  else
    .ok { db with publishers := db.publishers ++ [⟨id, name⟩] }

end PublisherRepository

namespace SeriesRepository

/-- `SeriesRepository.delete`: blocks when the series still has books;
otherwise removes its author links and the series row inside one
transaction. -/
def delete (db : DB) (id : String) : Except String DB :=
  let bookCount := db.seriesBookCount id
  if bookCount > 0 then
    .error ("Cannot delete series: it has " ++ toString bookCount ++
      " book(s) associated with it")
  else if db.series.any (fun s => s.id = id) then
    .ok (db.deleteSeriesRow id)
  else
    .error ("Series with id " ++ id ++ " not found")

/-- `SeriesRepository.create` with the id passed explicitly: inserts the
series row and its `series_authors` rows inside one transaction, failing
on any constraint violation (the repository itself does not require the
author list to be non-empty; the import path checks that before calling). -/
def create (db : DB) (id name : String) (authorIds : List String) :
    Except String DB :=
  if db.series.any (fun s => s.id = id) then
    .error "UNIQUE constraint failed: series.id"
  else if !authorIds.Nodup ∨
      authorIds.any (fun aid => !db.authors.any (fun a => a.id = aid)) then
    .error "constraint failed on series_authors"
  else
    .ok { db with
      series := db.series ++ [⟨id, name⟩]
      seriesAuthors := db.seriesAuthors ++ authorIds.map (fun aid => (id, aid)) }

end SeriesRepository

namespace SimpleRepository

/-- `GenreRepository.create` with the id passed explicitly (genre names
are UNIQUE in the schema). -/
def createGenre (db : DB) (id name : String) : Except String DB :=
  if db.genres.any (fun g => g.id = id) then
    .error "UNIQUE constraint failed: genres.id"
  else if db.genres.any (fun g => g.name = name) then
    .error "UNIQUE constraint failed: genres.name"
  else
    .ok { db with genres := db.genres ++ [⟨id, name⟩] }

/-- `TopicRepository.create` with the id passed explicitly (topic names
are UNIQUE in the schema). -/
def createTopic (db : DB) (id name : String) : Except String DB :=
  if db.topics.any (fun t => t.id = id) then
    .error "UNIQUE constraint failed: topics.id"
  else if db.topics.any (fun t => t.name = name) then
    .error "UNIQUE constraint failed: topics.name"
  else
    .ok { db with topics := db.topics ++ [⟨id, name⟩] }

/-- `CategoryRepository.create` with the id passed explicitly (category
names are UNIQUE in the schema). -/
def createCategory (db : DB) (id name : String) : Except String DB :=
  if db.categories.any (fun c => c.id = id) then
    .error "UNIQUE constraint failed: categories.id"
  else if db.categories.any (fun c => c.name = name) then
    .error "UNIQUE constraint failed: categories.name"
  else
    .ok { db with categories := db.categories ++ [⟨id, name⟩] }

end SimpleRepository

/-- Tags of integrity violations (DomainService, src/unnamed/part_006). -/
inductive ViolationType where
  | orphanAuthor
  | orphanPublisher
  | orphanSeries
  | seriesNoAuthors
  | bookNoPublisher
  | bookNoCategory
deriving DecidableEq, Repr

/-- One integrity violation record. -/
structure IntegrityViolation where
  vtype : ViolationType
  entityType : String
  entityId : String
  entityName : String
  message : String
deriving DecidableEq, Repr

/-- Aggregate counts per violation type. -/
structure IntegritySummary where
  orphanAuthors : Nat
  orphanPublishers : Nat
  orphanSeries : Nat
  seriesWithNoAuthors : Nat
  booksWithNoPublisher : Nat
  booksWithNoCategory : Nat
deriving DecidableEq, Repr

/-- Result of `DomainService.integrityCheck`. -/
structure IntegrityCheckResult where
  isValid : Bool
  violations : List IntegrityViolation
  summary : IntegritySummary
deriving DecidableEq, Repr

/-- Result of `DomainService.checkBookDeletionImpact`. -/
structure DeletionImpact where
  canDelete : Bool
  orphanedAuthors : List EntityRow
  orphanedPublisher : Option EntityRow
  orphanedSeries : Option EntityRow
  message : Option String
deriving DecidableEq, Repr

/-- Result of `DomainService.cleanupOrphans` (display names of the
removed entities, grouped by kind). -/
structure CleanupResult where
  deletedAuthors : List String
  deletedPublishers : List String
  deletedSeries : List String
deriving DecidableEq, Repr

namespace DomainService

/-- `SELECT a.* FROM authors a LEFT JOIN book_authors ba ... WHERE
ba.book_id IS NULL`: authors with zero book links. -/
def orphanAuthorsQuery (db : DB) : List EntityRow :=
  db.authors.filter (fun a => !db.bookAuthors.any (fun ba => ba.2 = a.id))

/-- `SELECT p.* FROM publishers p LEFT JOIN books b ... WHERE b.id IS
NULL`: publishers with zero books. -/
def orphanPublishersQuery (db : DB) : List EntityRow :=
  db.publishers.filter (fun p => !db.books.any (fun b => b.publisherId = p.id))

/-- `SELECT s.* FROM series s LEFT JOIN books b ... WHERE b.id IS NULL`:
series with zero books. -/
def orphanSeriesQuery (db : DB) : List EntityRow :=
  db.series.filter (fun s => !db.books.any (fun b => b.seriesId = some s.id))

/-- `SELECT s.* FROM series s LEFT JOIN series_authors sa ... WHERE
sa.author_id IS NULL`: series with zero linked authors. -/
def seriesNoAuthorsQuery (db : DB) : List EntityRow :=
  db.series.filter (fun s => !db.seriesAuthors.any (fun sa => sa.1 = s.id))

/-- Books whose publisher foreign key does not resolve. -/
def booksNoPublisherQuery (db : DB) : List BookRow :=
  db.books.filter (fun b => !db.publishers.any (fun p => p.id = b.publisherId))

/-- Books whose category foreign key does not resolve. -/
def booksNoCategoryQuery (db : DB) : List BookRow :=
  db.books.filter (fun b => !db.categories.any (fun c => c.id = b.categoryId))

/-- `DomainService.integrityCheck` (src/unnamed/part_006, lines 48-166):
full-graph scan listing every violation, with per-type counts;
`isValid` iff no violation was found. -/
def integrityCheck (db : DB) : IntegrityCheckResult :=
  let orphanAuthors := orphanAuthorsQuery db
  let orphanPublishers := orphanPublishersQuery db
  let orphanSeries := orphanSeriesQuery db
  let seriesNoAuthors := seriesNoAuthorsQuery db
  let booksNoPublisher := booksNoPublisherQuery db
  let booksNoCategory := booksNoCategoryQuery db
  let violations : List IntegrityViolation :=
    (orphanAuthors.map (fun a =>
      ⟨.orphanAuthor, "Author", a.id, a.name,
        "Author \"" ++ a.name ++ "\" has no books (violates: each author must have at least 1 book)"⟩)) ++
    (orphanPublishers.map (fun p =>
      ⟨.orphanPublisher, "Publisher", p.id, p.name,
        "Publisher \"" ++ p.name ++ "\" has no books (violates: each publisher must have at least 1 book)"⟩)) ++
    (orphanSeries.map (fun s =>
      ⟨.orphanSeries, "Series", s.id, s.name,
        "Series \"" ++ s.name ++ "\" has no books (violates: each series must have at least 1 book)"⟩)) ++
    (seriesNoAuthors.map (fun s =>
      ⟨.seriesNoAuthors, "Series", s.id, s.name,
        "Series \"" ++ s.name ++ "\" has no authors (violates: each series must have at least 1 author)"⟩)) ++
    (booksNoPublisher.map (fun b =>
      ⟨.bookNoPublisher, "Book", b.id, b.title,
        "Book \"" ++ b.title ++ "\" has no valid publisher"⟩)) ++
    (booksNoCategory.map (fun b =>
      ⟨.bookNoCategory, "Book", b.id, b.title,
        "Book \"" ++ b.title ++ "\" has no valid category"⟩))
  { isValid := violations.isEmpty
    violations := violations
    summary :=
      { orphanAuthors := orphanAuthors.length
        orphanPublishers := orphanPublishers.length
        orphanSeries := orphanSeries.length
        seriesWithNoAuthors := seriesNoAuthors.length
        booksWithNoPublisher := booksNoPublisher.length
        booksWithNoCategory := booksNoCategory.length } }

/-- `DomainService.checkBookDeletionImpact` (src/unnamed/part_006, lines
172-245): an independent implementation of the book delete-impact
computation; translated separately from `BookRepository.checkDeleteImpact`
so that their agreement (claim C10) is a real statement about two
definitions. -/
def checkBookDeletionImpact (db : DB) (bookId : String) : DeletionImpact :=
  match db.books.find? (fun b => b.id = bookId) with
  | none =>
      { canDelete := false, orphanedAuthors := [], orphanedPublisher := none,
        orphanedSeries := none, message := some "Book not found" }
  | some book =>
      let orphanedAuthors :=
        (db.bookAuthors.filter (fun ba => ba.1 = bookId)).filterMap (fun ba =>
          match db.authors.find? (fun a => a.id = ba.2) with
          | some a =>
              if (db.bookAuthors.filter (fun ba2 => ba2.2 = a.id)).length = 1 then
                some (⟨a.id, a.name⟩ : EntityRow)
              else none
          | none => none)
      let publisherBookCount :=
        (db.books.filter (fun b => b.publisherId = book.publisherId)).length
      let orphanedPublisher : Option EntityRow :=
        if publisherBookCount = 1 then
          (db.publishers.find? (fun p => p.id = book.publisherId)).map
            (fun p => ⟨p.id, p.name⟩)
        else none
      let orphanedSeries : Option EntityRow :=
        match book.seriesId with
        | some sid =>
            if (db.books.filter (fun b => b.seriesId = some sid)).length = 1 then
              (db.series.find? (fun s => s.id = sid)).map (fun s => ⟨s.id, s.name⟩)
            else none
        | none => none
      let problems : List String :=
        (if !orphanedAuthors.isEmpty then
          [toString orphanedAuthors.length ++ " author(s) would have no books: " ++
            String.intercalate ", " (orphanedAuthors.map EntityRow.name)] else []) ++
        (match orphanedPublisher with
         | some p => ["Publisher \"" ++ p.name ++ "\" would have no books"]
         | none => []) ++
        (match orphanedSeries with
         | some s => ["Series \"" ++ s.name ++ "\" would have no books"]
         | none => [])
      let canDelete := problems.isEmpty
      { canDelete := canDelete
        orphanedAuthors := orphanedAuthors
        orphanedPublisher := orphanedPublisher
        orphanedSeries := orphanedSeries
        message := if canDelete then none else
          some ("Cannot delete book: " ++ String.intercalate "; " problems ++
            ". Please reassign or delete these entities first.") }

/-- `DomainService.checkAuthorDeleteImpact` (src/unnamed/part_006, lines
251-269): the series for which this author is the only linked author. -/
def checkAuthorDeleteImpact (db : DB) (authorId : String) : List EntityRow :=
  (db.seriesAuthors.filter (fun sa => sa.2 = authorId)).filterMap (fun sa =>
    match db.series.find? (fun s => s.id = sa.1) with
    | some s =>
        if (db.seriesAuthors.filter (fun sa2 => sa2.1 = s.id)).length = 1 then
          some (⟨s.id, s.name⟩ : EntityRow)
        else none
    | none => none)

/-- `DomainService.cleanupOrphans` (src/unnamed/part_006, lines 409-458):
one transaction that deletes every orphan author (and its series links),
then every orphan publisher, then every orphan series (and its author
links), returning the display names of everything removed. -/
def cleanupOrphans (db : DB) : CleanupResult × DB :=
  let orphanAuthors := orphanAuthorsQuery db
  let db1 := orphanAuthors.foldl (fun d a => d.deleteAuthorRow a.id) db
  let orphanPublishers := orphanPublishersQuery db1
  let db2 := orphanPublishers.foldl (fun d p => d.deletePublisherRow p.id) db1
  let orphanSeries := orphanSeriesQuery db2
  let db3 := orphanSeries.foldl (fun d s => d.deleteSeriesRow s.id) db2
  (⟨orphanAuthors.map EntityRow.name, orphanPublishers.map EntityRow.name,
    orphanSeries.map EntityRow.name⟩, db3)

end DomainService

/-- A series record of an export batch; `authorIds` is the projection
`series.authors?.map(a => a.id) || []` the import performs. -/
structure BatchSeries where
  id : String
  name : String
  authorIds : List String
deriving DecidableEq, Repr

/-- A book record of an export batch; the id lists are the projections
`book.authors?.map(a => a.id) || []` (and likewise for genres/topics)
the import performs. -/
structure BatchBook where
  id : String
  title : String
  publisherId : String
  seriesId : Option String
  categoryId : String
  authorIds : List String
  genreIds : List String
  topicIds : List String
deriving DecidableEq, Repr

/-- The parsed content of an export file (`ExportData`), past the
version check; the `x || []` defaults are folded into plain lists. -/
structure ExportBatch where
  categories : List EntityRow
  authors : List EntityRow
  publishers : List EntityRow
  genres : List EntityRow
  topics : List EntityRow
  series : List BatchSeries
  books : List BatchBook
deriving DecidableEq, Repr

/-- `ImportResult`: per-kind import counts plus collected error strings. -/
structure ImportResult where
  success : Bool
  booksImported : Nat
  authorsImported : Nat
  publishersImported : Nat
  seriesImported : Nat
  genresImported : Nat
  topicsImported : Nat
  categoriesImported : Nat
  errors : List String
deriving DecidableEq, Repr

/-- The all-zero result the import starts from. -/
def ImportResult.init : ImportResult :=
  { success := false, booksImported := 0, authorsImported := 0,
    publishersImported := 0, seriesImported := 0, genresImported := 0,
    topicsImported := 0, categoriesImported := 0, errors := [] }

namespace ImportExportService

/-- One iteration of the category import loop: skip when the id already
exists, otherwise create, counting successes and collecting failures. -/
def importCategoryStep (st : ImportResult × DB) (c : EntityRow) :
    ImportResult × DB :=
  let res := st.1
  let db := st.2
  if db.categories.any (fun x => x.id = c.id) then (res, db)
  else
    match SimpleRepository.createCategory db c.id c.name with
    | .ok db1 => ({ res with categoriesImported := res.categoriesImported + 1 }, db1)
    | .error e =>
        ({ res with errors := res.errors ++
          ["Failed to import category \"" ++ c.name ++ "\": " ++ e] }, db)

/-- One iteration of the author import loop. -/
def importAuthorStep (st : ImportResult × DB) (a : EntityRow) :
    ImportResult × DB :=
  let res := st.1
  let db := st.2
  if db.authors.any (fun x => x.id = a.id) then (res, db)
  else
    match AuthorRepository.create db a.id a.name with
    | .ok db1 => ({ res with authorsImported := res.authorsImported + 1 }, db1)
    | .error e =>
        ({ res with errors := res.errors ++
          ["Failed to import author \"" ++ a.name ++ "\": " ++ e] }, db)

/-- One iteration of the publisher import loop. -/
def importPublisherStep (st : ImportResult × DB) (p : EntityRow) :
    ImportResult × DB :=
  let res := st.1
  let db := st.2
  if db.publishers.any (fun x => x.id = p.id) then (res, db)
  else
    match PublisherRepository.create db p.id p.name with
    | .ok db1 => ({ res with publishersImported := res.publishersImported + 1 }, db1)
    | .error e =>
        ({ res with errors := res.errors ++
          ["Failed to import publisher \"" ++ p.name ++ "\": " ++ e] }, db)

/-- One iteration of the genre import loop. -/
def importGenreStep (st : ImportResult × DB) (g : EntityRow) :
    ImportResult × DB :=
  let res := st.1
  let db := st.2
  if db.genres.any (fun x => x.id = g.id) then (res, db)
  else
    match SimpleRepository.createGenre db g.id g.name with
    | .ok db1 => ({ res with genresImported := res.genresImported + 1 }, db1)
    | .error e =>
        ({ res with errors := res.errors ++
          ["Failed to import genre \"" ++ g.name ++ "\": " ++ e] }, db)

/-- One iteration of the topic import loop. -/
def importTopicStep (st : ImportResult × DB) (t : EntityRow) :
    ImportResult × DB :=
  let res := st.1
  let db := st.2
  if db.topics.any (fun x => x.id = t.id) then (res, db)
  else
    match SimpleRepository.createTopic db t.id t.name with
    | .ok db1 => ({ res with topicsImported := res.topicsImported + 1 }, db1)
    | .error e =>
        ({ res with errors := res.errors ++
          ["Failed to import topic \"" ++ t.name ++ "\": " ++ e] }, db)

/-- One iteration of the series import loop: a series whose id is new is
created only when its author-reference list is non-empty; an
empty-author series is skipped without recording anything. -/
def importSeriesStep (st : ImportResult × DB) (s : BatchSeries) :
    ImportResult × DB :=
  let res := st.1
  let db := st.2
  if db.series.any (fun x => x.id = s.id) then (res, db)
  else if s.authorIds.length > 0 then
    match SeriesRepository.create db s.id s.name s.authorIds with
    | .ok db1 => ({ res with seriesImported := res.seriesImported + 1 }, db1)
    | .error e =>
        ({ res with errors := res.errors ++
          ["Failed to import series \"" ++ s.name ++ "\": " ++ e] }, db)
  else (res, db)

/-- One iteration of the book import loop. -/
def importBookStep (st : ImportResult × DB) (b : BatchBook) :
    ImportResult × DB :=
  let res := st.1
  let db := st.2
  if db.books.any (fun x => x.id = b.id) then (res, db)
  else
    match BookRepository.create db b.id
      ⟨b.title, b.publisherId, b.seriesId, b.categoryId, b.authorIds,
        b.genreIds, b.topicIds⟩ with
    | .ok db1 => ({ res with booksImported := res.booksImported + 1 }, db1)
    | .error e =>
        ({ res with errors := res.errors ++
          ["Failed to import book \"" ++ b.title ++ "\": " ++ e] }, db)

/-- The seven ordered import groups (Categories, Authors, Publishers,
Genres, Topics, Series, Books), before the trailing cleanup pass. -/
def importGroups (data : ExportBatch) (st : ImportResult × DB) :
    ImportResult × DB :=
  let st1 := data.categories.foldl importCategoryStep st
  let st2 := data.authors.foldl importAuthorStep st1
  let st3 := data.publishers.foldl importPublisherStep st2
  let st4 := data.genres.foldl importGenreStep st3
  let st5 := data.topics.foldl importTopicStep st4
  let st6 := data.series.foldl importSeriesStep st5
  data.books.foldl importBookStep st6

/-- `ImportExportService.importFromJson` (importExportService.ts, lines
87-269), from the point where the file has been parsed and the version
check has passed: the transactional body (seven import groups followed
by one `cleanupOrphans` pass whose deletions are reported on the errors
list) and the final `success := errors.isEmpty`. -/
def importBatch (data : ExportBatch) (db : DB) : ImportResult × DB :=
  let st7 := importGroups data (ImportResult.init, db)
  let res := st7.1
  let cl := DomainService.cleanupOrphans st7.2
  let cleanup := cl.1
  let db8 := cl.2
  let errs1 := if cleanup.deletedAuthors.length > 0 then
    res.errors ++ ["Cleaned up " ++ toString cleanup.deletedAuthors.length ++
      " orphan author(s) without books"] else res.errors
  let errs2 := if cleanup.deletedPublishers.length > 0 then
    errs1 ++ ["Cleaned up " ++ toString cleanup.deletedPublishers.length ++
      " orphan publisher(s) without books"] else errs1
  let errs3 := if cleanup.deletedSeries.length > 0 then
    errs2 ++ ["Cleaned up " ++ toString cleanup.deletedSeries.length ++
      " orphan series without books"] else errs2
  ({ res with errors := errs3, success := errs3.isEmpty }, db8)

end ImportExportService

/-! ## Concrete states used by witnesses and counterexamples -/

/-- The empty store. -/
def DB.empty : DB := ⟨[], [], [], [], [], [], [], [], [], [], []⟩

/-- A trivial book input used where a proposed new state is needed. -/
def sampleInput : BookInput :=
  ⟨"X", "p1", none, "c1", [], [], []⟩

/-! ## Claim C9 -/

/-- Claim C9 (corrected), counterexample: for an id that refers to no
book, `checkDeleteImpact` does not signal a NotFoundError — it returns
the empty impact report (and `checkUpdateImpact` does the same); in the
code both functions are total and return `hasImpact: false` for missing
ids. -/
theorem claim_C9_cex :
    BookRepository.checkDeleteImpact DB.empty "missing" = ImpactReport.empty ∧
    BookRepository.checkUpdateImpact DB.empty "missing" sampleInput =
      ImpactReport.empty := by
  constructor <;> rfl

/-- Claim C9 (amended): for every id that does not refer to an existing
book, `checkDeleteImpact` and `checkUpdateImpact` return the empty
structured report with `hasImpact = false` (rather than signalling
`NotFoundError`); for existing books they return the structured report
computed from the row (both functions are total and never throw). -/
theorem claim_C9 (db : DB) (id : String) (input : BookInput)
    (h : db.books.find? (fun b => b.id = id) = none) :
    BookRepository.checkDeleteImpact db id = ImpactReport.empty ∧
    BookRepository.checkUpdateImpact db id input = ImpactReport.empty := by
  constructor
  · unfold BookRepository.checkDeleteImpact
    rw [h]
  · unfold BookRepository.checkUpdateImpact
    rw [h]

/-- Witness for C9 at a concrete input. -/
theorem claim_C9_witness :
    (DB.empty.books.find? (fun b => b.id = "nope") = none) ∧
    BookRepository.checkDeleteImpact DB.empty "nope" = ImpactReport.empty ∧
    BookRepository.checkUpdateImpact DB.empty "nope" sampleInput =
      ImpactReport.empty :=
  ⟨by decide, claim_C9 DB.empty "nope" sampleInput (by decide)⟩

/-! ## Claim C10 -/

/-- Projection of `BookRepository.checkDeleteImpact` at a found book:
each field in terms of the shared orphan computations. -/
theorem br_checkDeleteImpact_found (db : DB) (id : String) (bk : BookRow)
    (h : db.books.find? (fun b => b.id = id) = some bk) :
    BookRepository.checkDeleteImpact db id =
      { orphanedAuthors := bookOrphanedAuthors db id
        orphanedPublisher := bookOrphanedPublisher db bk
        orphanedSeries := bookOrphanedSeries db bk
        hasImpact := !(bookOrphanedAuthors db id).isEmpty ||
          (bookOrphanedPublisher db bk).isSome ||
          (bookOrphanedSeries db bk).isSome } := by
  unfold BookRepository.checkDeleteImpact
  rw [h]

/-- The orphaned-author list of `DomainService.checkBookDeletionImpact`
coincides with the shared query. -/
theorem ds_impact_orphanedAuthors (db : DB) (id : String) (bk : BookRow)
    (h : db.books.find? (fun b => b.id = id) = some bk) :
    (DomainService.checkBookDeletionImpact db id).orphanedAuthors =
      bookOrphanedAuthors db id := by
  unfold DomainService.checkBookDeletionImpact
  rw [h]
  rfl

/-- The orphaned publisher of `DomainService.checkBookDeletionImpact`
coincides with the shared query. -/
theorem ds_impact_orphanedPublisher (db : DB) (id : String) (bk : BookRow)
    (h : db.books.find? (fun b => b.id = id) = some bk) :
    (DomainService.checkBookDeletionImpact db id).orphanedPublisher =
      bookOrphanedPublisher db bk := by
  unfold DomainService.checkBookDeletionImpact
  rw [h]
  rfl

/-- The orphaned series of `DomainService.checkBookDeletionImpact`
coincides with the shared query. -/
theorem ds_impact_orphanedSeries (db : DB) (id : String) (bk : BookRow)
    (h : db.books.find? (fun b => b.id = id) = some bk) :
    (DomainService.checkBookDeletionImpact db id).orphanedSeries =
      bookOrphanedSeries db bk := by
  unfold DomainService.checkBookDeletionImpact
  rw [h]
  rfl

/-- `canDelete` of `DomainService.checkBookDeletionImpact` is the
conjunction of the three orphan findings being empty. -/
theorem ds_impact_canDelete (db : DB) (id : String) (bk : BookRow)
    (h : db.books.find? (fun b => b.id = id) = some bk) :
    (DomainService.checkBookDeletionImpact db id).canDelete =
      ((bookOrphanedAuthors db id).isEmpty &&
        (bookOrphanedPublisher db bk).isNone &&
        (bookOrphanedSeries db bk).isNone) := by
  unfold DomainService.checkBookDeletionImpact
  rw [h]
  show (((if !(bookOrphanedAuthors db id).isEmpty then
      [toString (bookOrphanedAuthors db id).length ++
        " author(s) would have no books: " ++ String.intercalate ", "
          ((bookOrphanedAuthors db id).map EntityRow.name)] else []) ++
    (match bookOrphanedPublisher db bk with
     | some p => ["Publisher \"" ++ p.name ++ "\" would have no books"]
     | none => []) ++
    (match bookOrphanedSeries db bk with
     | some s => ["Series \"" ++ s.name ++ "\" would have no books"]
     | none => [])).isEmpty) = _
  cases bookOrphanedAuthors db id <;>
    cases bookOrphanedPublisher db bk <;>
    cases bookOrphanedSeries db bk <;> rfl

/-- Claim C10 (confirmed): on the same state, for every existing book, the
two independent delete-impact implementations
(`DomainService.checkBookDeletionImpact` and
`BookRepository.checkDeleteImpact`) identify the same orphaned authors,
the same orphaned publisher and the same orphaned series, and
`canDelete` is true exactly when `hasImpact` is false. -/
theorem claim_C10 (db : DB) (id : String) (bk : BookRow)
    (h : db.books.find? (fun b => b.id = id) = some bk) :
    (DomainService.checkBookDeletionImpact db id).orphanedAuthors =
      (BookRepository.checkDeleteImpact db id).orphanedAuthors ∧
    (DomainService.checkBookDeletionImpact db id).orphanedPublisher =
      (BookRepository.checkDeleteImpact db id).orphanedPublisher ∧
    (DomainService.checkBookDeletionImpact db id).orphanedSeries =
      (BookRepository.checkDeleteImpact db id).orphanedSeries ∧
    (DomainService.checkBookDeletionImpact db id).canDelete =
      !(BookRepository.checkDeleteImpact db id).hasImpact := by
  rw [br_checkDeleteImpact_found db id bk h,
    ds_impact_orphanedAuthors db id bk h,
    ds_impact_orphanedPublisher db id bk h,
    ds_impact_orphanedSeries db id bk h,
    ds_impact_canDelete db id bk h]
  refine ⟨rfl, rfl, rfl, ?_⟩
  cases bookOrphanedAuthors db id <;>
    cases bookOrphanedPublisher db bk <;>
    cases bookOrphanedSeries db bk <;> rfl

/-! ## Well-formedness (schema constraints SQLite enforces) -/

/-- Invariants every reachable SQLite state satisfies because of the
schema's primary keys and enforced foreign keys; `integrityCheck` does
not re-check these, so they are carried as a separate hypothesis. -/
structure WellFormed (db : DB) : Prop where
  booksNodup : (db.books.map BookRow.id).Nodup
  authorsNodup : (db.authors.map EntityRow.id).Nodup
  bookAuthorsNodup : db.bookAuthors.Nodup
  baBook : ∀ r ∈ db.bookAuthors, ∃ b ∈ db.books, b.id = r.1
  bookPublisher : ∀ b ∈ db.books, ∃ p ∈ db.publishers, p.id = b.publisherId
  bookCategory : ∀ b ∈ db.books, ∃ c ∈ db.categories, c.id = b.categoryId
  bookSeries : ∀ b ∈ db.books, ∀ sid, b.seriesId = some sid →
    ∃ s ∈ db.series, s.id = sid

/-! ## Claim C2 -/

/-- `BookRepository.delete` at a found book, in terms of the shared
orphan computations. -/
theorem br_delete_found (db : DB) (id : String) (bk : BookRow) (cascade : Bool)
    (h : db.books.find? (fun b => b.id = id) = some bk) :
    BookRepository.delete db id cascade =
      if !cascade ∧ (!(bookOrphanedAuthors db id).isEmpty ∨
          (bookOrphanedPublisher db bk).isSome ∨
          (bookOrphanedSeries db bk).isSome) then
        .error (BookRepository.blockedMessage (bookOrphanedAuthors db id)
          (bookOrphanedPublisher db bk) (bookOrphanedSeries db bk))
      else if cascade then
        .ok (BookRepository.cascadeOrphans (db.deleteBookRow id)
          (bookOrphanedAuthors db id) (bookOrphanedPublisher db bk)
          (bookOrphanedSeries db bk))
      else .ok (db.deleteBookRow id) := by
  unfold BookRepository.delete
  rw [h]

/-- Claim C2 (confirmed): for every existing book, if
`checkDeleteImpact` reports no impact then `deleteBook(b, false)`
succeeds, and if it reports impact then `deleteBook(b, false)` fails
with the blocking error built from exactly the orphaned authors,
publisher and series the report identified (the error return models the
rolled-back transaction: no writes survive). -/
theorem claim_C2 (db : DB) (id : String) (bk : BookRow)
    (h : db.books.find? (fun b => b.id = id) = some bk) :
    ((BookRepository.checkDeleteImpact db id).hasImpact = false →
      BookRepository.delete db id false = .ok (db.deleteBookRow id)) ∧
    ((BookRepository.checkDeleteImpact db id).hasImpact = true →
      BookRepository.delete db id false = .error
        (BookRepository.blockedMessage
          (BookRepository.checkDeleteImpact db id).orphanedAuthors
          (BookRepository.checkDeleteImpact db id).orphanedPublisher
          (BookRepository.checkDeleteImpact db id).orphanedSeries)) := by
  rw [br_checkDeleteImpact_found db id bk h, br_delete_found db id bk false h]
  cases hoa : bookOrphanedAuthors db id <;>
    cases hop : bookOrphanedPublisher db bk <;>
    cases hos : bookOrphanedSeries db bk <;>
    simp

/-- Witness for C2: a store with one book whose author would be
orphaned, so the delete is blocked. -/
def dbC2 : DB :=
  { books := [⟨"b1", "B", "p1", none, "c1"⟩, ⟨"b2", "B2", "p1", none, "c1"⟩]
    authors := [⟨"a1", "A"⟩]
    publishers := [⟨"p1", "P"⟩]
    series := []
    genres := []
    topics := []
    categories := [⟨"c1", "C"⟩]
    bookAuthors := [("b1", "a1")]
    bookGenres := []
    bookTopics := []
    seriesAuthors := [] }

/-- Witness for C2 at a concrete store. -/
theorem claim_C2_witness :
    (dbC2.books.find? (fun b => b.id = "b1") = some ⟨"b1", "B", "p1", none, "c1"⟩) ∧
    ((BookRepository.checkDeleteImpact dbC2 "b1").hasImpact = true →
      BookRepository.delete dbC2 "b1" false = .error
        (BookRepository.blockedMessage
          (BookRepository.checkDeleteImpact dbC2 "b1").orphanedAuthors
          (BookRepository.checkDeleteImpact dbC2 "b1").orphanedPublisher
          (BookRepository.checkDeleteImpact dbC2 "b1").orphanedSeries)) :=
  ⟨by decide, (claim_C2 dbC2 "b1" ⟨"b1", "B", "p1", none, "c1"⟩ (by decide)).2⟩

/-! ## Claim C4 -/

/-- Structure eta for entity rows. -/
theorem EntityRow.eta (e : EntityRow) : (⟨e.id, e.name⟩ : EntityRow) = e := rfl

/-- Membership in the shared orphaned-author query: exactly the existing
authors linked to the book whose total book-link count is 1 (on a store
whose author ids are unique). -/
theorem mem_bookOrphanedAuthors (db : DB) (id : String) (e : EntityRow)
    (hnd : (db.authors.map EntityRow.id).Nodup) :
    e ∈ bookOrphanedAuthors db id ↔
      (e ∈ db.authors ∧ (id, e.id) ∈ db.bookAuthors ∧
        db.authorBookCount e.id = 1) := by
  unfold bookOrphanedAuthors
  rw [List.mem_filterMap]
  constructor
  · rintro ⟨ba, hba, hfn⟩
    rw [List.mem_filter] at hba
    obtain ⟨hbamem, hba1⟩ := hba
    have hba1 : ba.1 = id := by simpa using hba1
    cases hfind : db.authors.find? (fun a => a.id = ba.2) with
    | none => rw [hfind] at hfn; simp at hfn
    | some a =>
        rw [hfind] at hfn
        have hamem := List.mem_of_find?_eq_some hfind
        have haid : a.id = ba.2 := by simpa using List.find?_some hfind
        simp only [] at hfn
        split at hfn
        · rename_i hcount
          have hea : e = a := by
            cases a
            exact (Option.some.inj hfn).symm
          subst hea
          refine ⟨hamem, ?_, hcount⟩
          have : ba = (id, e.id) := by
            cases ba
            simp_all
          rw [← this]
          exact hbamem
        · simp at hfn
  · rintro ⟨hea, herow, hcount⟩
    refine ⟨(id, e.id), ?_, ?_⟩
    · rw [List.mem_filter]
      exact ⟨herow, by simp⟩
    · have hex : (db.authors.find? (fun a => a.id = e.id)).isSome := by
        rw [List.find?_isSome]
        exact ⟨e, hea, by simp⟩
      obtain ⟨a, hfind⟩ := Option.isSome_iff_exists.mp hex
      have haid : a.id = e.id := by simpa using List.find?_some hfind
      have hamem := List.mem_of_find?_eq_some hfind
      have hae : a = e :=
        List.inj_on_of_nodup_map hnd hamem hea haid
      show (match db.authors.find? (fun a => a.id = e.id) with
        | some a => if db.authorBookCount a.id = 1 then
            some (⟨a.id, a.name⟩ : EntityRow) else none
        | none => none) = some e
      rw [hfind, hae]
      simp [hcount]

/-- Reduction of the shared orphaned-publisher query. -/
theorem bookOrphanedPublisher_eq (db : DB) (bk : BookRow) :
    bookOrphanedPublisher db bk =
      (if db.publisherBookCount bk.publisherId = 1 then
        (db.publishers.find? (fun p => p.id = bk.publisherId)).map
          (fun p => ⟨p.id, p.name⟩)
      else none) := rfl

/-- The shared orphaned-publisher query is populated exactly when the
publisher's book count is 1, given that the book's publisher resolves. -/
theorem bookOrphanedPublisher_isSome (db : DB) (bk : BookRow)
    (hp : ∃ p ∈ db.publishers, p.id = bk.publisherId) :
    (bookOrphanedPublisher db bk).isSome ↔
      db.publisherBookCount bk.publisherId = 1 := by
  rw [bookOrphanedPublisher_eq]
  by_cases hc : db.publisherBookCount bk.publisherId = 1
  · rw [if_pos hc]
    simp only [hc, iff_true]
    have hex : (db.publishers.find? (fun q => q.id = bk.publisherId)).isSome := by
      rw [List.find?_isSome]
      obtain ⟨p, hpmem, hpid⟩ := hp
      exact ⟨p, hpmem, by simp [hpid]⟩
    obtain ⟨q, hq⟩ := Option.isSome_iff_exists.mp hex
    rw [hq]
    rfl
  · rw [if_neg hc]
    simp [hc]

/-- When the shared orphaned-publisher query returns a row, it is the
book's publisher. -/
theorem bookOrphanedPublisher_id (db : DB) (bk : BookRow) (p : EntityRow)
    (h : bookOrphanedPublisher db bk = some p) : p.id = bk.publisherId := by
  rw [bookOrphanedPublisher_eq] at h
  by_cases hc : db.publisherBookCount bk.publisherId = 1
  · rw [if_pos hc] at h
    cases hfind : db.publishers.find? (fun q => q.id = bk.publisherId) with
    | none => rw [hfind] at h; simp at h
    | some q =>
        rw [hfind] at h
        have hqid : q.id = bk.publisherId := by simpa using List.find?_some hfind
        rw [Option.map_some'] at h
        cases h
        exact hqid
  · rw [if_neg hc] at h
    simp at h

/-- Reduction of the shared orphaned-series query at a book that belongs
to a series. -/
theorem bookOrphanedSeries_eq_of_some (db : DB) (bk : BookRow) (sid : String)
    (hsid : bk.seriesId = some sid) :
    bookOrphanedSeries db bk =
      (if db.seriesBookCount sid = 1 then
        (db.series.find? (fun s => s.id = sid)).map (fun s => ⟨s.id, s.name⟩)
      else none) := by
  unfold bookOrphanedSeries
  rw [hsid]

/-- The shared orphaned-series query, when the book belongs to series
`sid` and that series resolves: populated iff the series book count is
1, and any returned row is that series. -/
theorem bookOrphanedSeries_spec (db : DB) (bk : BookRow) (sid : String)
    (hsid : bk.seriesId = some sid) (hs : ∃ s ∈ db.series, s.id = sid) :
    ((bookOrphanedSeries db bk).isSome ↔ db.seriesBookCount sid = 1) ∧
      (∀ s, bookOrphanedSeries db bk = some s → s.id = sid) := by
  rw [bookOrphanedSeries_eq_of_some db bk sid hsid]
  by_cases hc : db.seriesBookCount sid = 1
  · rw [if_pos hc]
    constructor
    · simp only [hc, iff_true]
      have hex : (db.series.find? (fun t => t.id = sid)).isSome := by
        rw [List.find?_isSome]
        obtain ⟨s, hsmem, hsid2⟩ := hs
        exact ⟨s, hsmem, by simp [hsid2]⟩
      obtain ⟨t, ht⟩ := Option.isSome_iff_exists.mp hex
      rw [ht]
      rfl
    · intro s hsome
      cases hfind : db.series.find? (fun t => t.id = sid) with
      | none => rw [hfind] at hsome; simp at hsome
      | some t =>
          rw [hfind] at hsome
          have htid : t.id = sid := by simpa using List.find?_some hfind
          rw [Option.map_some'] at hsome
          cases hsome
          exact htid
  · rw [if_neg hc]
    constructor
    · simp [hc]
    · intro s hsome
      simp at hsome

/-- Claim C4 (confirmed): for every existing book on a schema-consistent
store, `checkDeleteImpact` reports (a) exactly the linked authors whose
total book-link count is exactly 1; (b) the book's publisher iff its
total book count is exactly 1; (c) the book's series (when it has one)
iff its total book count is exactly 1 (and nothing when it has none);
and `hasImpact` is the disjunction of the three findings. -/
theorem claim_C4 (db : DB) (id : String) (bk : BookRow)
    (h : db.books.find? (fun b => b.id = id) = some bk)
    (hwf : WellFormed db) :
    (∀ e : EntityRow,
      e ∈ (BookRepository.checkDeleteImpact db id).orphanedAuthors ↔
        (e ∈ db.authors ∧ (id, e.id) ∈ db.bookAuthors ∧
          db.authorBookCount e.id = 1)) ∧
    ((BookRepository.checkDeleteImpact db id).orphanedPublisher.isSome ↔
      db.publisherBookCount bk.publisherId = 1) ∧
    (∀ p, (BookRepository.checkDeleteImpact db id).orphanedPublisher = some p →
      p.id = bk.publisherId) ∧
    (∀ sid, bk.seriesId = some sid →
      (((BookRepository.checkDeleteImpact db id).orphanedSeries.isSome ↔
          db.seriesBookCount sid = 1) ∧
        (∀ s, (BookRepository.checkDeleteImpact db id).orphanedSeries = some s →
          s.id = sid))) ∧
    (bk.seriesId = none →
      (BookRepository.checkDeleteImpact db id).orphanedSeries = none) ∧
    ((BookRepository.checkDeleteImpact db id).hasImpact =
      (!(BookRepository.checkDeleteImpact db id).orphanedAuthors.isEmpty ||
        (BookRepository.checkDeleteImpact db id).orphanedPublisher.isSome ||
        (BookRepository.checkDeleteImpact db id).orphanedSeries.isSome)) := by
  have hbk : bk ∈ db.books := List.mem_of_find?_eq_some h
  rw [br_checkDeleteImpact_found db id bk h]
  refine ⟨fun e => mem_bookOrphanedAuthors db id e hwf.authorsNodup,
    bookOrphanedPublisher_isSome db bk (hwf.bookPublisher bk hbk),
    bookOrphanedPublisher_id db bk, ?_, ?_, rfl⟩
  · intro sid hsid
    exact bookOrphanedSeries_spec db bk sid hsid (hwf.bookSeries bk hbk sid hsid)
  · intro hnone
    unfold bookOrphanedSeries
    rw [hnone]

/-- Witness for C4 at a concrete store. -/
theorem claim_C4_witness :
    ((dbC2.books.find? (fun b => b.id = "b1") =
      some ⟨"b1", "B", "p1", none, "c1"⟩) ∧
      (⟨"a1", "A"⟩ : EntityRow) ∈
        (BookRepository.checkDeleteImpact dbC2 "b1").orphanedAuthors) := by
  refine ⟨by decide, ?_⟩
  have hclaim := claim_C4 dbC2 "b1" ⟨"b1", "B", "p1", none, "c1"⟩ (by decide)
    (by constructor <;> decide)
  exact (hclaim.1 ⟨"a1", "A"⟩).mpr (by decide)

/-! ## Claim C5 -/

/-- `BookRepository.checkUpdateImpact` at a found book, with its three
findings written out. -/
theorem br_checkUpdateImpact_found (db : DB) (id : String) (input : BookInput)
    (bk : BookRow) (h : db.books.find? (fun b => b.id = id) = some bk) :
    BookRepository.checkUpdateImpact db id input =
      (let orphanedAuthors :=
        ((BookRepository.currentAuthorIds db id).filter
          (fun aid => !input.authorIds.contains aid)).filterMap (fun aid =>
            if db.authorBookCount aid = 1 then
              (db.authors.find? (fun a => a.id = aid)).map
                (fun a => ⟨a.id, a.name⟩)
            else none)
      let orphanedPublisher :=
        if input.publisherId ≠ "" ∧ input.publisherId ≠ bk.publisherId then
          if db.publisherBookCount bk.publisherId = 1 then
            (db.publishers.find? (fun p => p.id = bk.publisherId)).map
              (fun p => ⟨p.id, p.name⟩)
          else none
        else none
      let orphanedSeries :=
        match bk.seriesId with
        | some sid =>
            if input.seriesId ≠ some sid then
              if db.seriesBookCount sid = 1 then
                (db.series.find? (fun s => s.id = sid)).map
                  (fun s => ⟨s.id, s.name⟩)
              else none
            else none
        | none => none
      { orphanedAuthors := orphanedAuthors
        orphanedPublisher := orphanedPublisher
        orphanedSeries := orphanedSeries
        hasImpact := !orphanedAuthors.isEmpty || orphanedPublisher.isSome ||
          orphanedSeries.isSome }) := by
  unfold BookRepository.checkUpdateImpact
  rw [h]

/-- Claim C5 (confirmed): for every existing book and proposed new state,
`checkUpdateImpact` reports orphan risk only for values actually being
removed — no publisher risk when the publisher id is unchanged, no
series risk when the series id is unchanged (even if the respective
count is 1), and only authors that are currently linked but absent from
the proposed author list. -/
theorem claim_C5 (db : DB) (id : String) (input : BookInput) (bk : BookRow)
    (h : db.books.find? (fun b => b.id = id) = some bk) :
    (input.publisherId = bk.publisherId →
      (BookRepository.checkUpdateImpact db id input).orphanedPublisher = none) ∧
    (input.seriesId = bk.seriesId →
      (BookRepository.checkUpdateImpact db id input).orphanedSeries = none) ∧
    (∀ e ∈ (BookRepository.checkUpdateImpact db id input).orphanedAuthors,
      e.id ∈ BookRepository.currentAuthorIds db id ∧
        e.id ∉ input.authorIds) := by
  rw [br_checkUpdateImpact_found db id input bk h]
  refine ⟨?_, ?_, ?_⟩
  · intro heq
    simp only []
    rw [if_neg]
    rintro ⟨-, hne⟩
    exact hne heq
  · intro heq
    cases hser : bk.seriesId with
    | none => simp only []
    | some sid =>
        simp only []
        rw [if_neg]
        rw [hser] at heq
        intro hne
        exact hne heq
  · intro e he
    simp only [List.mem_filterMap] at he
    obtain ⟨aid, haid, hfn⟩ := he
    rw [List.mem_filter] at haid
    obtain ⟨hcur, hnotin⟩ := haid
    have hnotin2 : e.id = aid → e.id ∉ input.authorIds := by
      intro heid hmem
      rw [heid] at hmem
      simp only [Bool.not_eq_eq_eq_not, Bool.not_true] at hnotin
      have hcontains : input.authorIds.contains aid = true := by
        rw [List.contains_eq_any_beq, List.any_eq_true]
        exact ⟨aid, hmem, by simp⟩
      rw [hcontains] at hnotin
      exact Bool.false_ne_true hnotin.symm
    split at hfn
    · cases hfind : db.authors.find? (fun a => a.id = aid) with
      | none => rw [hfind] at hfn; simp at hfn
      | some a =>
          rw [hfind] at hfn
          rw [Option.map_some'] at hfn
          have haid2 : a.id = aid := by simpa using List.find?_some hfind
          cases hfn
          exact ⟨by rw [haid2]; exact hcur, hnotin2 haid2⟩
    · simp at hfn

/-- Witness for C5 at a concrete store: the input keeps publisher and
series unchanged, so no publisher/series risk is reported even though
the publisher book count of the second book is irrelevant. -/
theorem claim_C5_witness :
    (dbC2.books.find? (fun b => b.id = "b1") =
      some ⟨"b1", "B", "p1", none, "c1"⟩) ∧
    (BookRepository.checkUpdateImpact dbC2 "b1" sampleInput).orphanedPublisher =
      none ∧
    (BookRepository.checkUpdateImpact dbC2 "b1" sampleInput).orphanedSeries =
      none := by
  have hclaim := claim_C5 dbC2 "b1" sampleInput ⟨"b1", "B", "p1", none, "c1"⟩
    (by decide)
  exact ⟨by decide, hclaim.1 (by decide), hclaim.2.1 (by decide)⟩

/-! ## Claim C3 -/

/-- A store in which author a1 has zero book links but is the sole
author of series s1, and s1 itself has a book (by nobody): reachable,
and `integrityCheck` considers it valid for authors. -/
def dbC3 : DB :=
  { books := [⟨"b1", "B", "p1", some "s1", "c1"⟩]
    authors := [⟨"a1", "A"⟩]
    publishers := [⟨"p1", "P"⟩]
    series := [⟨"s1", "S"⟩]
    genres := []
    topics := []
    categories := [⟨"c1", "C"⟩]
    bookAuthors := []
    bookGenres := []
    bookTopics := []
    seriesAuthors := [("s1", "a1")] }

/-- Claim C3 (corrected), counterexample: a1 is the sole author of
series s1 (the author-delete impact check itself says so), yet
`deleteAuthor(a1)` succeeds — it deletes the author and its series
links, leaving s1 with an empty author set (one series-without-authors
violation afterwards). -/
theorem claim_C3_cex :
    DomainService.checkAuthorDeleteImpact dbC3 "a1" = [⟨"s1", "S"⟩] ∧
    AuthorRepository.delete dbC3 "a1" =
      .ok { dbC3 with authors := [], seriesAuthors := [] } ∧
    (DomainService.integrityCheck
      { dbC3 with authors := [], seriesAuthors := [] }).summary.seriesWithNoAuthors
      = 1 := by
  refine ⟨by decide, by decide, by decide⟩

/-- Claim C3 (amended): the public `deleteAuthor` succeeds exactly when
the author exists and has zero book links, independently of the
sole-series-author condition, and on success it removes the author row
together with all of the author's series links (so a successful delete
of a zero-book sole series author leaves that series with an empty
author set; the sole-author condition is only computed by the separate
read-only `checkAuthorDeleteImpact`, which the engine does not consult
on delete). -/
theorem claim_C3 (db : DB) (id : String) :
    ((∃ db2, AuthorRepository.delete db id = .ok db2) ↔
      ((∃ a ∈ db.authors, a.id = id) ∧ db.authorBookCount id = 0)) ∧
    (∀ db2, AuthorRepository.delete db id = .ok db2 →
      db2 = db.deleteAuthorRow id) := by
  constructor
  · constructor
    · rintro ⟨db2, hok⟩
      simp only [AuthorRepository.delete] at hok
      split at hok
      · exact absurd hok (by simp)
      · split at hok
        · rename_i hnbc hany
          refine ⟨?_, by omega⟩
          simpa using hany
        · exact absurd hok (by simp)
    · rintro ⟨⟨a, hmem, haid⟩, hzero⟩
      refine ⟨db.deleteAuthorRow id, ?_⟩
      simp only [AuthorRepository.delete]
      rw [hzero]
      rw [if_neg (by omega)]
      rw [if_pos]
      simp only [List.any_eq_true]
      exact ⟨a, hmem, by simp [haid]⟩
  · intro db2 hok
    simp only [AuthorRepository.delete] at hok
    split at hok
    · exact absurd hok (by simp)
    · split at hok
      · exact (Except.ok.inj hok).symm
      · exact absurd hok (by simp)

/-! ## Claim C8 -/

/-- A batch containing a single series with an empty author list. -/
def batchC8 : ExportBatch :=
  { categories := [], authors := [], publishers := [], genres := [],
    topics := [], series := [⟨"s1", "S", []⟩], books := [] }

/-- Claim C8 (corrected), counterexample: importing a batch whose only
record is a series with an empty author list appends no error string at
all (the series is skipped silently), contradicting the claim that every
such skip is reported. -/
theorem claim_C8_cex :
    (ImportExportService.importBatch batchC8 DB.empty).1.errors = [] ∧
    (ImportExportService.importBatch batchC8 DB.empty).2.series = [] ∧
    (ImportExportService.importBatch batchC8 DB.empty).1.seriesImported = 0 := by
  refine ⟨by decide, by decide, by decide⟩

/-- Claim C8 (amended): during import, a new series record with an empty
author-reference list is not inserted and nothing is recorded on the
errors list (the skip is silent); a new series record with a non-empty
author list whose create succeeds is inserted and counted. -/
theorem claim_C8 (res : ImportResult) (db : DB) (s : BatchSeries)
    (hnew : db.series.any (fun x => x.id = s.id) = false) :
    (s.authorIds = [] →
      ImportExportService.importSeriesStep (res, db) s = (res, db)) ∧
    (∀ db2, s.authorIds ≠ [] →
      SeriesRepository.create db s.id s.name s.authorIds = .ok db2 →
      ImportExportService.importSeriesStep (res, db) s =
        ({ res with seriesImported := res.seriesImported + 1 }, db2)) := by
  constructor
  · intro hempty
    simp only [ImportExportService.importSeriesStep]
    rw [hnew]
    simp [hempty]
  · intro db2 hne hok
    simp only [ImportExportService.importSeriesStep]
    rw [hnew]
    have hlen : s.authorIds.length > 0 := by
      cases hsa : s.authorIds with
      | nil => exact absurd hsa hne
      | cons x xs => simp [hsa]
    simp only [Bool.false_eq_true, if_false, hlen, if_pos, hok]

/-- Witness for C8 at a concrete store and record. -/
theorem claim_C8_witness :
    (DB.empty.series.any (fun x => x.id = "s1") = false) ∧
    ImportExportService.importSeriesStep (ImportResult.init, DB.empty)
      ⟨"s1", "S", []⟩ = (ImportResult.init, DB.empty) :=
  ⟨by decide,
    (claim_C8 ImportResult.init DB.empty ⟨"s1", "S", []⟩ (by decide)).1 rfl⟩

/-! ## Claim C6 -/

/-- Unpacking a populated shared orphaned-series finding. -/
theorem bookOrphanedSeries_some_elim (db : DB) (bk : BookRow) (s : EntityRow)
    (h : bookOrphanedSeries db bk = some s) :
    ∃ sid, bk.seriesId = some sid ∧ db.seriesBookCount sid = 1 ∧ s.id = sid := by
  cases hsid : bk.seriesId with
  | none => unfold bookOrphanedSeries at h; rw [hsid] at h; simp at h
  | some sid =>
      rw [bookOrphanedSeries_eq_of_some db bk sid hsid] at h
      refine ⟨sid, rfl, ?_, ?_⟩
      · by_cases hc : db.seriesBookCount sid = 1
        · exact hc
        · rw [if_neg hc] at h; simp at h
      · by_cases hc : db.seriesBookCount sid = 1
        · rw [if_pos hc] at h
          cases hfind : db.series.find? (fun t => t.id = sid) with
          | none => rw [hfind] at h; simp at h
          | some t =>
              rw [hfind, Option.map_some'] at h
              cases h
              simpa using List.find?_some hfind
        · rw [if_neg hc] at h; simp at h

/-- On a store with unique book ids, when the book being deleted is the
only book of series `sid`, removing it leaves no book referencing `sid`,
so the `ON DELETE SET NULL` pass is the identity. -/
theorem setNull_identity (db : DB) (id sid : String) (bk : BookRow)
    (hfind : db.books.find? (fun b => b.id = id) = some bk)
    (hsid : bk.seriesId = some sid)
    (hcount : db.seriesBookCount sid = 1) :
    (db.books.filter (fun b => b.id ≠ id)).map (fun b =>
      if b.seriesId = some sid then { b with seriesId := none } else b) =
    db.books.filter (fun b => b.id ≠ id) := by
  have hbk : bk ∈ db.books := List.mem_of_find?_eq_some hfind
  have hbkid : bk.id = id := by simpa using List.find?_some hfind
  have hmain : ∀ b ∈ db.books.filter (fun b => b.id ≠ id),
      (if b.seriesId = some sid then { b with seriesId := none } else b) = b := by
    intro b hb
    rw [List.mem_filter] at hb
    obtain ⟨hbmem, hbid⟩ := hb
    have hbid : b.id ≠ id := by simpa using hbid
    rw [if_neg]
    intro hbser
    unfold DB.seriesBookCount at hcount
    obtain ⟨c, hc⟩ := List.length_eq_one.mp hcount
    have hbin : b ∈ db.books.filter (fun x => x.seriesId = some sid) := by
      rw [List.mem_filter]
      exact ⟨hbmem, by simp [hbser]⟩
    have hbkin : bk ∈ db.books.filter (fun x => x.seriesId = some sid) := by
      rw [List.mem_filter]
      exact ⟨hbk, by simp [hsid]⟩
    rw [hc] at hbin hbkin
    simp only [List.mem_singleton] at hbin hbkin
    exact hbid (by rw [hbin, ← hbkin, hbkid])
  calc (db.books.filter (fun b => b.id ≠ id)).map (fun b =>
        if b.seriesId = some sid then { b with seriesId := none } else b)
      = (db.books.filter (fun b => b.id ≠ id)).map (fun b => b) :=
        List.map_congr_left hmain
    _ = db.books.filter (fun b => b.id ≠ id) := List.map_id' _

/-- Claim C6 (confirmed): when the delete impact of a book consists of
exactly author A (sole book), publisher P (sole book) and series S (sole
book), `deleteBook(b, cascadeOrphans := true)` removes the book, A, P
and S together with their relationship rows, and removes no other book,
author, publisher, series, genre, topic or category record. -/
theorem claim_C6 (db : DB) (id : String) (bk : BookRow) (A P S : EntityRow)
    (h : db.books.find? (fun b => b.id = id) = some bk)
    (hA : bookOrphanedAuthors db id = [A])
    (hP : bookOrphanedPublisher db bk = some P)
    (hS : bookOrphanedSeries db bk = some S) :
    ∃ db2, BookRepository.delete db id true = .ok db2 ∧
      db2.books = db.books.filter (fun b => b.id ≠ id) ∧
      db2.authors = db.authors.filter (fun a => a.id ≠ A.id) ∧
      db2.publishers = db.publishers.filter (fun p => p.id ≠ P.id) ∧
      db2.series = db.series.filter (fun s => s.id ≠ S.id) ∧
      db2.genres = db.genres ∧
      db2.topics = db.topics ∧
      db2.categories = db.categories ∧
      db2.bookAuthors = (db.bookAuthors.filter (fun ba => ba.1 ≠ id)).filter
        (fun ba => ba.2 ≠ A.id) ∧
      db2.seriesAuthors = (db.seriesAuthors.filter (fun sa => sa.2 ≠ A.id)).filter
        (fun sa => sa.1 ≠ S.id) := by
  obtain ⟨sid, hsid, hcount, hSid⟩ := bookOrphanedSeries_some_elim db bk S hS
  rw [br_delete_found db id bk true h, hA, hP, hS]
  refine ⟨(((db.deleteBookRow id).deleteAuthorRow A.id).deletePublisherRow
      P.id).deleteSeriesRow S.id,
    ?_, ?_, rfl, rfl, rfl, rfl, rfl, rfl, rfl, rfl⟩
  · rw [if_neg]
    · rw [if_pos rfl]
      rfl
    · rintro ⟨hfalse, -⟩
      simp at hfalse
  · show ((((db.deleteBookRow id).deleteAuthorRow A.id).deletePublisherRow
      P.id).deleteSeriesRow S.id).books = _
    simp only [DB.deleteBookRow, DB.deleteAuthorRow, DB.deletePublisherRow,
      DB.deleteSeriesRow]
    rw [hSid]
    exact setNull_identity db id sid bk h hsid hcount

/-- Witness store for C6: book x is the sole book of author a1,
publisher p1 and series s1; book y (author a2, publisher p2) must stay
untouched. -/
def dbC6 : DB :=
  { books := [⟨"x", "X", "p1", some "s1", "c1"⟩, ⟨"y", "Y", "p2", none, "c1"⟩]
    authors := [⟨"a1", "A1"⟩, ⟨"a2", "A2"⟩]
    publishers := [⟨"p1", "P1"⟩, ⟨"p2", "P2"⟩]
    series := [⟨"s1", "S1"⟩]
    genres := [⟨"g1", "G1"⟩]
    topics := []
    categories := [⟨"c1", "C"⟩]
    bookAuthors := [("x", "a1"), ("y", "a2")]
    bookGenres := [("x", "g1")]
    bookTopics := []
    seriesAuthors := [("s1", "a1")] }

/-- Witness for C6 at the concrete store. -/
theorem claim_C6_witness :
    ∃ db2, BookRepository.delete dbC6 "x" true = .ok db2 ∧
      db2.books = dbC6.books.filter (fun b => b.id ≠ "x") ∧
      db2.authors = dbC6.authors.filter (fun a => a.id ≠ "a1") ∧
      db2.publishers = dbC6.publishers.filter (fun p => p.id ≠ "p1") ∧
      db2.series = dbC6.series.filter (fun s => s.id ≠ "s1") ∧
      db2.genres = dbC6.genres ∧
      db2.topics = dbC6.topics ∧
      db2.categories = dbC6.categories ∧
      db2.bookAuthors = (dbC6.bookAuthors.filter (fun ba => ba.1 ≠ "x")).filter
        (fun ba => ba.2 ≠ "a1") ∧
      db2.seriesAuthors = (dbC6.seriesAuthors.filter (fun sa => sa.2 ≠ "a1")).filter
        (fun sa => sa.1 ≠ "s1") :=
  claim_C6 dbC6 "x" ⟨"x", "X", "p1", some "s1", "c1"⟩ ⟨"a1", "A1"⟩ ⟨"p1", "P1"⟩
    ⟨"s1", "S1"⟩ (by decide) (by decide) (by decide) (by decide)

/-- Witness for C10 at a concrete store. -/
theorem claim_C10_witness :
    (DomainService.checkBookDeletionImpact dbC2 "b1").orphanedAuthors =
      (BookRepository.checkDeleteImpact dbC2 "b1").orphanedAuthors ∧
    (DomainService.checkBookDeletionImpact dbC2 "b1").orphanedPublisher =
      (BookRepository.checkDeleteImpact dbC2 "b1").orphanedPublisher ∧
    (DomainService.checkBookDeletionImpact dbC2 "b1").orphanedSeries =
      (BookRepository.checkDeleteImpact dbC2 "b1").orphanedSeries ∧
    (DomainService.checkBookDeletionImpact dbC2 "b1").canDelete =
      !(BookRepository.checkDeleteImpact dbC2 "b1").hasImpact :=
  claim_C10 dbC2 "b1" ⟨"b1", "B", "p1", none, "c1"⟩ (by decide)

/-! ## Pointwise forms of the integrity conditions -/

/-- Every author has at least one book link (no orphan authors). -/
def AuthorsOk (db : DB) : Prop :=
  ∀ a ∈ db.authors, ∃ ba ∈ db.bookAuthors, ba.2 = a.id

/-- Every publisher has at least one book (no orphan publishers). -/
def PublishersOk (db : DB) : Prop :=
  ∀ p ∈ db.publishers, ∃ b ∈ db.books, b.publisherId = p.id

/-- Every series has at least one book (no orphan series). -/
def SeriesBooksOk (db : DB) : Prop :=
  ∀ s ∈ db.series, ∃ b ∈ db.books, b.seriesId = some s.id

/-- Every series has at least one linked author. -/
def SeriesAuthorsOk (db : DB) : Prop :=
  ∀ s ∈ db.series, ∃ sa ∈ db.seriesAuthors, sa.1 = s.id

/-- Every book's publisher foreign key resolves. -/
def BooksPubOk (db : DB) : Prop :=
  ∀ b ∈ db.books, ∃ p ∈ db.publishers, p.id = b.publisherId

/-- Every book's category foreign key resolves. -/
def BooksCatOk (db : DB) : Prop :=
  ∀ b ∈ db.books, ∃ c ∈ db.categories, c.id = b.categoryId

/-- The conjunction `integrityCheck` verifies. -/
def Valid (db : DB) : Prop :=
  AuthorsOk db ∧ PublishersOk db ∧ SeriesBooksOk db ∧ SeriesAuthorsOk db ∧
    BooksPubOk db ∧ BooksCatOk db

/-- The orphan-author scan is empty iff every author has a book link. -/
theorem orphanAuthorsQuery_eq_nil (db : DB) :
    DomainService.orphanAuthorsQuery db = [] ↔ AuthorsOk db := by
  unfold DomainService.orphanAuthorsQuery AuthorsOk
  rw [List.filter_eq_nil]
  constructor
  · intro h a ha
    have := h a ha
    simp only [Bool.not_eq_eq_eq_not, Bool.not_true, Bool.not_eq_false] at this
    rw [List.any_eq_true] at this
    obtain ⟨ba, hba, hba2⟩ := this
    exact ⟨ba, hba, by simpa using hba2⟩
  · intro h a ha
    obtain ⟨ba, hba, hba2⟩ := h a ha
    simp only [Bool.not_eq_eq_eq_not, Bool.not_true, Bool.not_eq_false]
    rw [List.any_eq_true]
    exact ⟨ba, hba, by simp [hba2]⟩

/-- The orphan-publisher scan is empty iff every publisher has a book. -/
theorem orphanPublishersQuery_eq_nil (db : DB) :
    DomainService.orphanPublishersQuery db = [] ↔ PublishersOk db := by
  unfold DomainService.orphanPublishersQuery PublishersOk
  rw [List.filter_eq_nil]
  constructor
  · intro h p hp
    have := h p hp
    simp only [Bool.not_eq_eq_eq_not, Bool.not_true, Bool.not_eq_false] at this
    rw [List.any_eq_true] at this
    obtain ⟨b, hb, hb2⟩ := this
    exact ⟨b, hb, by simpa using hb2⟩
  · intro h p hp
    obtain ⟨b, hb, hb2⟩ := h p hp
    simp only [Bool.not_eq_eq_eq_not, Bool.not_true, Bool.not_eq_false]
    rw [List.any_eq_true]
    exact ⟨b, hb, by simp [hb2]⟩

/-- The orphan-series scan is empty iff every series has a book. -/
theorem orphanSeriesQuery_eq_nil (db : DB) :
    DomainService.orphanSeriesQuery db = [] ↔ SeriesBooksOk db := by
  unfold DomainService.orphanSeriesQuery SeriesBooksOk
  rw [List.filter_eq_nil]
  constructor
  · intro h s hs
    have := h s hs
    simp only [Bool.not_eq_eq_eq_not, Bool.not_true, Bool.not_eq_false] at this
    rw [List.any_eq_true] at this
    obtain ⟨b, hb, hb2⟩ := this
    exact ⟨b, hb, by simpa using hb2⟩
  · intro h s hs
    obtain ⟨b, hb, hb2⟩ := h s hs
    simp only [Bool.not_eq_eq_eq_not, Bool.not_true, Bool.not_eq_false]
    rw [List.any_eq_true]
    exact ⟨b, hb, by simp [hb2]⟩

/-- The series-without-authors scan is empty iff every series has an
author link. -/
theorem seriesNoAuthorsQuery_eq_nil (db : DB) :
    DomainService.seriesNoAuthorsQuery db = [] ↔ SeriesAuthorsOk db := by
  unfold DomainService.seriesNoAuthorsQuery SeriesAuthorsOk
  rw [List.filter_eq_nil]
  constructor
  · intro h s hs
    have := h s hs
    simp only [Bool.not_eq_eq_eq_not, Bool.not_true, Bool.not_eq_false] at this
    rw [List.any_eq_true] at this
    obtain ⟨sa, hsa, hsa2⟩ := this
    exact ⟨sa, hsa, by simpa using hsa2⟩
  · intro h s hs
    obtain ⟨sa, hsa, hsa2⟩ := h s hs
    simp only [Bool.not_eq_eq_eq_not, Bool.not_true, Bool.not_eq_false]
    rw [List.any_eq_true]
    exact ⟨sa, hsa, by simp [hsa2]⟩

/-- The dangling-publisher scan is empty iff every book's publisher
resolves. -/
theorem booksNoPublisherQuery_eq_nil (db : DB) :
    DomainService.booksNoPublisherQuery db = [] ↔ BooksPubOk db := by
  unfold DomainService.booksNoPublisherQuery BooksPubOk
  rw [List.filter_eq_nil]
  constructor
  · intro h b hb
    have := h b hb
    simp only [Bool.not_eq_eq_eq_not, Bool.not_true, Bool.not_eq_false] at this
    rw [List.any_eq_true] at this
    obtain ⟨p, hp, hp2⟩ := this
    exact ⟨p, hp, by simpa using hp2⟩
  · intro h b hb
    obtain ⟨p, hp, hp2⟩ := h b hb
    simp only [Bool.not_eq_eq_eq_not, Bool.not_true, Bool.not_eq_false]
    rw [List.any_eq_true]
    exact ⟨p, hp, by simp [hp2]⟩

/-- The dangling-category scan is empty iff every book's category
resolves. -/
theorem booksNoCategoryQuery_eq_nil (db : DB) :
    DomainService.booksNoCategoryQuery db = [] ↔ BooksCatOk db := by
  unfold DomainService.booksNoCategoryQuery BooksCatOk
  rw [List.filter_eq_nil]
  constructor
  · intro h b hb
    have := h b hb
    simp only [Bool.not_eq_eq_eq_not, Bool.not_true, Bool.not_eq_false] at this
    rw [List.any_eq_true] at this
    obtain ⟨c, hc, hc2⟩ := this
    exact ⟨c, hc, by simpa using hc2⟩
  · intro h b hb
    obtain ⟨c, hc, hc2⟩ := h b hb
    simp only [Bool.not_eq_eq_eq_not, Bool.not_true, Bool.not_eq_false]
    rw [List.any_eq_true]
    exact ⟨c, hc, by simp [hc2]⟩

/-- `integrityCheck` reports a valid store exactly when the six
pointwise integrity conditions hold. -/
theorem isValid_iff (db : DB) :
    (DomainService.integrityCheck db).isValid = true ↔ Valid db := by
  simp only [DomainService.integrityCheck]
  rw [List.isEmpty_iff]
  simp only [List.append_eq_nil, List.map_eq_nil]
  rw [orphanAuthorsQuery_eq_nil, orphanPublishersQuery_eq_nil,
    orphanSeriesQuery_eq_nil, seriesNoAuthorsQuery_eq_nil,
    booksNoPublisherQuery_eq_nil, booksNoCategoryQuery_eq_nil]
  unfold Valid
  tauto

/-! ## Generic list helpers -/

/-- A duplicate-free list with two or more elements matching `p` has a
match different from any given element. -/
theorem exists_second_row {α : Type} (p : α → Bool) (l : List α)
    (hnd : l.Nodup) (hlen : 2 ≤ (l.filter p).length) (x : α) :
    ∃ y ∈ l, p y = true ∧ y ≠ x := by
  have hfnd : (l.filter p).Nodup := hnd.filter p
  cases hl : l.filter p with
  | nil => rw [hl] at hlen; simp at hlen
  | cons a t =>
      cases t with
      | nil => rw [hl] at hlen; simp at hlen
      | cons b t2 =>
          have hamem : a ∈ l.filter p := by rw [hl]; exact List.mem_cons_self _ _
          have hbmem : b ∈ l.filter p := by
            rw [hl]; exact List.mem_cons_of_mem _ (List.mem_cons_self _ _)
          have hab : a ≠ b := by
            rw [hl] at hfnd
            intro hcontra
            exact (List.nodup_cons.mp hfnd).1 (hcontra ▸ List.mem_cons_self _ _)
          rw [List.mem_filter] at hamem hbmem
          by_cases hax : a = x
          · exact ⟨b, hbmem.1, hbmem.2, fun hbx => hab (by rw [hax, hbx])⟩
          · exact ⟨a, hamem.1, hamem.2, hax⟩

/-- A list whose images under `f` are duplicate-free, with two or more
elements matching `p`, has a match whose image differs from any given
value. -/
theorem exists_second_id {α : Type} (f : α → String) (p : α → Bool)
    (l : List α) (hnd : (l.map f).Nodup)
    (hlen : 2 ≤ (l.filter p).length) (v : String) :
    ∃ y ∈ l, p y = true ∧ f y ≠ v := by
  have hlnd : l.Nodup := List.Nodup.of_map f hnd
  have hfnd : (l.filter p).Nodup := hlnd.filter p
  cases hl : l.filter p with
  | nil => rw [hl] at hlen; simp at hlen
  | cons a t =>
      cases t with
      | nil => rw [hl] at hlen; simp at hlen
      | cons b t2 =>
          have hamem : a ∈ l.filter p := by rw [hl]; exact List.mem_cons_self _ _
          have hbmem : b ∈ l.filter p := by
            rw [hl]; exact List.mem_cons_of_mem _ (List.mem_cons_self _ _)
          have hab : a ≠ b := by
            rw [hl] at hfnd
            intro hcontra
            exact (List.nodup_cons.mp hfnd).1 (hcontra ▸ List.mem_cons_self _ _)
          rw [List.mem_filter] at hamem hbmem
          have hfab : f a ≠ f b := fun hcontra =>
            hab (List.inj_on_of_nodup_map hnd hamem.1 hbmem.1 hcontra)
          by_cases hax : f a = v
          · exact ⟨b, hbmem.1, hbmem.2, fun hbx => hfab (by rw [hax, hbx])⟩
          · exact ⟨a, hamem.1, hamem.2, hax⟩

/-! ## Preservation lemmas for the lifecycle operations -/

/-- Eliminating a successful non-cascade book delete: the book resolved,
no impact was found, and the result is the plain row deletion. -/
theorem br_delete_false_ok_elim (db : DB) (id : String) (db2 : DB)
    (h : BookRepository.delete db id false = .ok db2) :
    ∃ bk, db.books.find? (fun b => b.id = id) = some bk ∧
      bookOrphanedAuthors db id = [] ∧
      bookOrphanedPublisher db bk = none ∧
      bookOrphanedSeries db bk = none ∧
      db2 = db.deleteBookRow id := by
  cases hfind : db.books.find? (fun b => b.id = id) with
  | none =>
      unfold BookRepository.delete at h
      rw [hfind] at h
      exact absurd h (by simp)
  | some bk =>
      rw [br_delete_found db id bk false hfind] at h
      by_cases hcond : (!false) = true ∧ ((!(bookOrphanedAuthors db id).isEmpty) = true ∨
          (bookOrphanedPublisher db bk).isSome = true ∨
          (bookOrphanedSeries db bk).isSome = true)
      · rw [if_pos hcond] at h
        exact absurd h (by simp)
      · rw [if_neg hcond] at h
        simp only [Bool.false_eq_true, if_false] at h
        have hd : ¬((!(bookOrphanedAuthors db id).isEmpty) = true ∨
            (bookOrphanedPublisher db bk).isSome = true ∨
            (bookOrphanedSeries db bk).isSome = true) := fun hcontra =>
          hcond ⟨rfl, hcontra⟩
        push_neg at hd
        obtain ⟨h1, h2, h3⟩ := hd
        refine ⟨bk, rfl, ?_, ?_, ?_, (Except.ok.inj h).symm⟩
        · have : (bookOrphanedAuthors db id).isEmpty = true := by
            cases hv : (bookOrphanedAuthors db id).isEmpty
            · exact absurd (by rw [hv]; rfl) h1
            · rfl
          exact List.isEmpty_iff.mp this
        · cases hv : bookOrphanedPublisher db bk
          · rfl
          · exact absurd (by rw [hv]; rfl) h2
        · cases hv : bookOrphanedSeries db bk
          · rfl
          · exact absurd (by rw [hv]; rfl) h3

/-- A successful non-cascade book delete preserves the six integrity
conditions and well-formedness. -/
theorem valid_deleteBook (db : DB) (id : String) (db2 : DB)
    (hwf : WellFormed db) (hv : Valid db)
    (h : BookRepository.delete db id false = .ok db2) :
    Valid db2 ∧ WellFormed db2 := by
  obtain ⟨bk, hfind, hoa, hop, hos, hdb2⟩ := br_delete_false_ok_elim db id db2 h
  subst hdb2
  have hbk : bk ∈ db.books := List.mem_of_find?_eq_some hfind
  have hbkid : bk.id = id := by simpa using List.find?_some hfind
  obtain ⟨hva, hvp, hvs, hvsa, hvbp, hvbc⟩ := hv
  constructor
  · refine ⟨?_, ?_, ?_, ?_, ?_, ?_⟩
    · -- AuthorsOk
      intro a ha
      obtain ⟨ba, hbam, hba2⟩ := hva a ha
      by_cases hb1 : ba.1 = id
      · have hbafil : ba ∈ db.bookAuthors.filter (fun r => r.1 = id) := by
          rw [List.mem_filter]; exact ⟨hbam, by simp [hb1]⟩
        have hfn := (List.filterMap_eq_nil.mp hoa) ba hbafil
        have hsome : (db.authors.find? (fun x => x.id = ba.2)).isSome := by
          rw [List.find?_isSome]; exact ⟨a, ha, by simp [hba2]⟩
        obtain ⟨a2, ha2⟩ := Option.isSome_iff_exists.mp hsome
        rw [ha2] at hfn
        have ha2id : a2.id = ba.2 := by simpa using List.find?_some ha2
        have hfn2 : (if db.authorBookCount a2.id = 1 then
            some (⟨a2.id, a2.name⟩ : EntityRow) else none) = none := hfn
        have hcne : db.authorBookCount a2.id ≠ 1 := by
          intro hc
          rw [if_pos hc] at hfn2
          simp at hfn2
        have hge1 : 1 ≤ db.authorBookCount ba.2 := by
          unfold DB.authorBookCount
          have : ba ∈ db.bookAuthors.filter (fun r => r.2 = ba.2) := by
            rw [List.mem_filter]; exact ⟨hbam, by simp⟩
          have hne := List.ne_nil_of_mem this
          have := List.length_pos.mpr hne
          omega
        have hge2 : 2 ≤ (db.bookAuthors.filter (fun r => r.2 = ba.2)).length := by
          rw [ha2id] at hcne
          unfold DB.authorBookCount at hcne hge1
          omega
        obtain ⟨y, hy, hyp, hyne⟩ := exists_second_row
          (fun r => decide (r.2 = ba.2)) db.bookAuthors hwf.bookAuthorsNodup
          hge2 ba
        have hyp2 : y.2 = ba.2 := by simpa using hyp
        have hy1 : y.1 ≠ id := by
          intro hy1
          apply hyne
          have : y = (id, ba.2) := by
            cases y; simp_all
          have hba : ba = (id, ba.2) := by
            cases ba; simp_all
          rw [this, hba]
        refine ⟨y, ?_, by rw [hyp2, hba2]⟩
        show y ∈ db.bookAuthors.filter (fun r => r.1 ≠ id)
        rw [List.mem_filter]
        exact ⟨hy, by simp [hy1]⟩
      · refine ⟨ba, ?_, hba2⟩
        show ba ∈ db.bookAuthors.filter (fun r => r.1 ≠ id)
        rw [List.mem_filter]
        exact ⟨hbam, by simp [hb1]⟩
    · -- PublishersOk
      intro p hp
      obtain ⟨b0, hb0, hb0p⟩ := hvp p hp
      by_cases hb0id : b0.id = id
      · have hb0bk : b0 = bk :=
          List.inj_on_of_nodup_map hwf.booksNodup hb0 hbk (by rw [hb0id, hbkid])
        have hpid : p.id = bk.publisherId := by rw [← hb0bk]; exact hb0p.symm
        have hcne : db.publisherBookCount bk.publisherId ≠ 1 := by
          intro hc
          rw [bookOrphanedPublisher_eq, if_pos hc] at hop
          have hsome : (db.publishers.find? (fun q => q.id = bk.publisherId)).isSome := by
            rw [List.find?_isSome]; exact ⟨p, hp, by simp [hpid]⟩
          obtain ⟨q, hq⟩ := Option.isSome_iff_exists.mp hsome
          rw [hq] at hop
          simp at hop
        have hge1 : 1 ≤ db.publisherBookCount bk.publisherId := by
          unfold DB.publisherBookCount
          have : bk ∈ db.books.filter (fun b => b.publisherId = bk.publisherId) := by
            rw [List.mem_filter]; exact ⟨hbk, by simp⟩
          have := List.length_pos.mpr (List.ne_nil_of_mem this)
          omega
        have hge2 : 2 ≤ (db.books.filter
            (fun b => b.publisherId = bk.publisherId)).length := by
          unfold DB.publisherBookCount at hcne hge1
          omega
        obtain ⟨y, hy, hyp, hyne⟩ := exists_second_id BookRow.id
          (fun b => decide (b.publisherId = bk.publisherId)) db.books
          hwf.booksNodup hge2 id
        have hyp2 : y.publisherId = bk.publisherId := by simpa using hyp
        refine ⟨y, ?_, by rw [hyp2, hpid]⟩
        show y ∈ db.books.filter (fun b => b.id ≠ id)
        rw [List.mem_filter]
        exact ⟨hy, by simp [hyne]⟩
      · refine ⟨b0, ?_, hb0p⟩
        show b0 ∈ db.books.filter (fun b => b.id ≠ id)
        rw [List.mem_filter]
        exact ⟨hb0, by simp [hb0id]⟩
    · -- SeriesBooksOk
      intro s hs
      obtain ⟨b0, hb0, hb0s⟩ := hvs s hs
      by_cases hb0id : b0.id = id
      · have hb0bk : b0 = bk :=
          List.inj_on_of_nodup_map hwf.booksNodup hb0 hbk (by rw [hb0id, hbkid])
        have hsid : bk.seriesId = some s.id := by rw [← hb0bk]; exact hb0s
        have hcne : db.seriesBookCount s.id ≠ 1 := by
          intro hc
          rw [bookOrphanedSeries_eq_of_some db bk s.id hsid, if_pos hc] at hos
          have hsome : (db.series.find? (fun t => t.id = s.id)).isSome := by
            rw [List.find?_isSome]; exact ⟨s, hs, by simp⟩
          obtain ⟨q, hq⟩ := Option.isSome_iff_exists.mp hsome
          rw [hq] at hos
          simp at hos
        have hge1 : 1 ≤ db.seriesBookCount s.id := by
          unfold DB.seriesBookCount
          have : bk ∈ db.books.filter (fun b => b.seriesId = some s.id) := by
            rw [List.mem_filter]; exact ⟨hbk, by simp [hsid]⟩
          have := List.length_pos.mpr (List.ne_nil_of_mem this)
          omega
        have hge2 : 2 ≤ (db.books.filter
            (fun b => b.seriesId = some s.id)).length := by
          unfold DB.seriesBookCount at hcne hge1
          omega
        obtain ⟨y, hy, hyp, hyne⟩ := exists_second_id BookRow.id
          (fun b => decide (b.seriesId = some s.id)) db.books
          hwf.booksNodup hge2 id
        have hyp2 : y.seriesId = some s.id := by simpa using hyp
        refine ⟨y, ?_, hyp2⟩
        show y ∈ db.books.filter (fun b => b.id ≠ id)
        rw [List.mem_filter]
        exact ⟨hy, by simp [hyne]⟩
      · refine ⟨b0, ?_, hb0s⟩
        show b0 ∈ db.books.filter (fun b => b.id ≠ id)
        rw [List.mem_filter]
        exact ⟨hb0, by simp [hb0id]⟩
    · -- SeriesAuthorsOk: series and series links untouched
      exact hvsa
    · -- BooksPubOk: remaining books are original books
      intro b hb
      have : b ∈ db.books := (List.mem_filter.mp hb).1
      exact hvbp b this
    · -- BooksCatOk
      intro b hb
      have : b ∈ db.books := (List.mem_filter.mp hb).1
      exact hvbc b this
  · refine ⟨?_, hwf.authorsNodup, ?_, ?_, ?_, ?_, ?_⟩
    · exact List.Nodup.sublist
        (List.Sublist.map BookRow.id (List.filter_sublist db.books))
        hwf.booksNodup
    · exact List.Nodup.sublist (List.filter_sublist db.bookAuthors)
        hwf.bookAuthorsNodup
    · intro r hr
      simp only [DB.deleteBookRow] at hr ⊢
      rw [List.mem_filter] at hr
      obtain ⟨hrmem, hr1⟩ := hr
      obtain ⟨b0, hb0, hb0id⟩ := hwf.baBook r hrmem
      refine ⟨b0, ?_, hb0id⟩
      rw [List.mem_filter]
      refine ⟨hb0, ?_⟩
      have : r.1 ≠ id := by simpa using hr1
      simp [hb0id, this]
    · intro b hb
      exact hwf.bookPublisher b (List.mem_filter.mp hb).1
    · intro b hb
      exact hwf.bookCategory b (List.mem_filter.mp hb).1
    · intro b hb sid hsid
      exact hwf.bookSeries b (List.mem_filter.mp hb).1 sid hsid

/-- Eliminating a successful author delete: the author existed with zero
book links, and the result is the row deletion. -/
theorem authorDelete_ok_elim (db : DB) (id : String) (db2 : DB)
    (h : AuthorRepository.delete db id = .ok db2) :
    (∃ a ∈ db.authors, a.id = id) ∧ db.authorBookCount id = 0 ∧
      db2 = db.deleteAuthorRow id := by
  simp only [AuthorRepository.delete] at h
  split at h
  · exact absurd h (by simp)
  · split at h
    · rename_i hnbc hany
      refine ⟨by simpa using hany, by omega, (Except.ok.inj h).symm⟩
    · exact absurd h (by simp)

/-- On a valid store, `deleteAuthor` never succeeds: every existing
author has a book link, so the zero-book check always blocks. -/
theorem valid_no_deleteAuthor (db : DB) (id : String) (db2 : DB)
    (hv : Valid db) (h : AuthorRepository.delete db id = .ok db2) : False := by
  obtain ⟨⟨a, hmem, haid⟩, hcount, -⟩ := authorDelete_ok_elim db id db2 h
  obtain ⟨ba, hbam, hba2⟩ := hv.1 a hmem
  have : ba ∈ db.bookAuthors.filter (fun r => r.2 = id) := by
    rw [List.mem_filter]
    exact ⟨hbam, by simp [hba2, haid]⟩
  have := List.length_pos.mpr (List.ne_nil_of_mem this)
  unfold DB.authorBookCount at hcount
  omega

/-- Eliminating a successful publisher delete. -/
theorem publisherDelete_ok_elim (db : DB) (id : String) (db2 : DB)
    (h : PublisherRepository.delete db id = .ok db2) :
    (∃ p ∈ db.publishers, p.id = id) ∧ db.publisherBookCount id = 0 ∧
      db2 = db.deletePublisherRow id := by
  simp only [PublisherRepository.delete] at h
  split at h
  · exact absurd h (by simp)
  · split at h
    · rename_i hnbc hany
      refine ⟨by simpa using hany, by omega, (Except.ok.inj h).symm⟩
    · exact absurd h (by simp)

/-- On a valid store, `deletePublisher` never succeeds. -/
theorem valid_no_deletePublisher (db : DB) (id : String) (db2 : DB)
    (hv : Valid db) (h : PublisherRepository.delete db id = .ok db2) : False := by
  obtain ⟨⟨p, hmem, hpid⟩, hcount, -⟩ := publisherDelete_ok_elim db id db2 h
  obtain ⟨b, hbm, hbp⟩ := hv.2.1 p hmem
  have : b ∈ db.books.filter (fun x => x.publisherId = id) := by
    rw [List.mem_filter]
    exact ⟨hbm, by simp [hbp, hpid]⟩
  have := List.length_pos.mpr (List.ne_nil_of_mem this)
  unfold DB.publisherBookCount at hcount
  omega

/-- Eliminating a successful series delete. -/
theorem seriesDelete_ok_elim (db : DB) (id : String) (db2 : DB)
    (h : SeriesRepository.delete db id = .ok db2) :
    (∃ s ∈ db.series, s.id = id) ∧ db.seriesBookCount id = 0 ∧
      db2 = db.deleteSeriesRow id := by
  simp only [SeriesRepository.delete] at h
  split at h
  · exact absurd h (by simp)
  · split at h
    · rename_i hnbc hany
      refine ⟨by simpa using hany, by omega, (Except.ok.inj h).symm⟩
    · exact absurd h (by simp)

/-- On a valid store, `deleteSeries` never succeeds. -/
theorem valid_no_deleteSeries (db : DB) (id : String) (db2 : DB)
    (hv : Valid db) (h : SeriesRepository.delete db id = .ok db2) : False := by
  obtain ⟨⟨s, hmem, hsid⟩, hcount, -⟩ := seriesDelete_ok_elim db id db2 h
  obtain ⟨b, hbm, hbs⟩ := hv.2.2.1 s hmem
  have : b ∈ db.books.filter (fun x => x.seriesId = some id) := by
    rw [List.mem_filter]
    exact ⟨hbm, by simp [hbs, hsid]⟩
  have := List.length_pos.mpr (List.ne_nil_of_mem this)
  unfold DB.seriesBookCount at hcount
  omega

/-- On a valid store, the orphan sweep finds nothing and changes
nothing. -/
theorem cleanup_valid_identity (db : DB) (hv : Valid db) :
    DomainService.cleanupOrphans db = (⟨[], [], []⟩, db) := by
  have h1 : DomainService.orphanAuthorsQuery db = [] :=
    (orphanAuthorsQuery_eq_nil db).mpr hv.1
  have h2 : DomainService.orphanPublishersQuery db = [] :=
    (orphanPublishersQuery_eq_nil db).mpr hv.2.1
  have h3 : DomainService.orphanSeriesQuery db = [] :=
    (orphanSeriesQuery_eq_nil db).mpr hv.2.2.1
  unfold DomainService.cleanupOrphans
  rw [h1]
  simp only [List.foldl_nil]
  rw [h2]
  simp only [List.foldl_nil]
  rw [h3]
  simp only [List.foldl_nil, List.map_nil]

/-! ## Eliminating successful creates -/

/-- A successful category create appends the row (and the id and name
were fresh). -/
theorem createCategory_ok_elim (db : DB) (id name : String) (db1 : DB)
    (h : SimpleRepository.createCategory db id name = .ok db1) :
    db1 = { db with categories := db.categories ++ [⟨id, name⟩] } ∧
      (∀ c ∈ db.categories, c.id ≠ id) := by
  unfold SimpleRepository.createCategory at h
  split at h
  · exact absurd h (by simp)
  · rename_i hfresh
    split at h
    · exact absurd h (by simp)
    · refine ⟨(Except.ok.inj h).symm, ?_⟩
      intro c hc hcid
      exact hfresh (by rw [List.any_eq_true]; exact ⟨c, hc, by simp [hcid]⟩)

/-- A successful genre create appends the row. -/
theorem createGenre_ok_elim (db : DB) (id name : String) (db1 : DB)
    (h : SimpleRepository.createGenre db id name = .ok db1) :
    db1 = { db with genres := db.genres ++ [⟨id, name⟩] } ∧
      (∀ g ∈ db.genres, g.id ≠ id) := by
  unfold SimpleRepository.createGenre at h
  split at h
  · exact absurd h (by simp)
  · rename_i hfresh
    split at h
    · exact absurd h (by simp)
    · refine ⟨(Except.ok.inj h).symm, ?_⟩
      intro g hg hgid
      exact hfresh (by rw [List.any_eq_true]; exact ⟨g, hg, by simp [hgid]⟩)

/-- A successful topic create appends the row. -/
theorem createTopic_ok_elim (db : DB) (id name : String) (db1 : DB)
    (h : SimpleRepository.createTopic db id name = .ok db1) :
    db1 = { db with topics := db.topics ++ [⟨id, name⟩] } ∧
      (∀ t ∈ db.topics, t.id ≠ id) := by
  unfold SimpleRepository.createTopic at h
  split at h
  · exact absurd h (by simp)
  · rename_i hfresh
    split at h
    · exact absurd h (by simp)
    · refine ⟨(Except.ok.inj h).symm, ?_⟩
      intro t ht htid
      exact hfresh (by rw [List.any_eq_true]; exact ⟨t, ht, by simp [htid]⟩)

/-- A successful author create appends the row and the id was fresh. -/
theorem authorCreate_ok_elim (db : DB) (id name : String) (db1 : DB)
    (h : AuthorRepository.create db id name = .ok db1) :
    db1 = { db with authors := db.authors ++ [⟨id, name⟩] } ∧
      (∀ a ∈ db.authors, a.id ≠ id) := by
  unfold AuthorRepository.create at h
  split at h
  · exact absurd h (by simp)
  · rename_i hfresh
    refine ⟨(Except.ok.inj h).symm, ?_⟩
    intro a ha haid
    exact hfresh (by rw [List.any_eq_true]; exact ⟨a, ha, by simp [haid]⟩)

/-- A successful publisher create appends the row and the id was fresh. -/
theorem publisherCreate_ok_elim (db : DB) (id name : String) (db1 : DB)
    (h : PublisherRepository.create db id name = .ok db1) :
    db1 = { db with publishers := db.publishers ++ [⟨id, name⟩] } ∧
      (∀ p ∈ db.publishers, p.id ≠ id) := by
  unfold PublisherRepository.create at h
  split at h
  · exact absurd h (by simp)
  · rename_i hfresh
    refine ⟨(Except.ok.inj h).symm, ?_⟩
    intro p hp hpid
    exact hfresh (by rw [List.any_eq_true]; exact ⟨p, hp, by simp [hpid]⟩)

/-- A successful series create appends the series row and its author
links; the id was fresh, the author list was duplicate-free and every
referenced author exists. -/
theorem seriesCreate_ok_elim (db : DB) (id name : String)
    (authorIds : List String) (db1 : DB)
    (h : SeriesRepository.create db id name authorIds = .ok db1) :
    db1 = { db with
        series := db.series ++ [⟨id, name⟩]
        seriesAuthors := db.seriesAuthors ++
          authorIds.map (fun aid => (id, aid)) } ∧
      (∀ s ∈ db.series, s.id ≠ id) ∧ authorIds.Nodup ∧
      (∀ aid ∈ authorIds, ∃ a ∈ db.authors, a.id = aid) := by
  unfold SeriesRepository.create at h
  split at h
  · exact absurd h (by simp)
  · rename_i hfresh
    split at h
    · exact absurd h (by simp)
    · rename_i hok
      push_neg at hok
      obtain ⟨hnd, hex⟩ := hok
      refine ⟨(Except.ok.inj h).symm, ?_, by simpa using hnd, ?_⟩
      · intro s hs hsid
        exact hfresh (by rw [List.any_eq_true]; exact ⟨s, hs, by simp [hsid]⟩)
      · intro aid haid
        by_contra hno
        apply hex
        rw [List.any_eq_true]
        refine ⟨aid, haid, ?_⟩
        push_neg at hno
        simp only [Bool.not_eq_true']
        rw [List.any_eq_false]
        intro a ha
        simp [hno a ha]

/-- A successful book create appends the book row and its link rows; the
id was fresh, all foreign keys resolve, and the link id lists are
duplicate-free with every referenced entity existing. -/
theorem bookCreate_ok_elim (db : DB) (id : String) (input : BookInput)
    (db1 : DB) (h : BookRepository.create db id input = .ok db1) :
    db1 = { db with
        books := db.books ++ [⟨id, input.title, input.publisherId,
          input.seriesId, input.categoryId⟩]
        bookAuthors := db.bookAuthors ++
          input.authorIds.map (fun aid => (id, aid))
        bookGenres := db.bookGenres ++
          input.genreIds.map (fun gid => (id, gid))
        bookTopics := db.bookTopics ++
          input.topicIds.map (fun tid => (id, tid)) } ∧
      (∀ b ∈ db.books, b.id ≠ id) ∧
      (∃ p ∈ db.publishers, p.id = input.publisherId) ∧
      (∃ c ∈ db.categories, c.id = input.categoryId) ∧
      (∀ sid, input.seriesId = some sid → ∃ s ∈ db.series, s.id = sid) ∧
      input.authorIds.Nodup ∧
      (∀ aid ∈ input.authorIds, ∃ a ∈ db.authors, a.id = aid) := by
  unfold BookRepository.create at h
  split at h
  · exact absurd h (by simp)
  · rename_i hfresh
    split at h
    · exact absurd h (by simp)
    · rename_i hpub
      split at h
      · exact absurd h (by simp)
      · rename_i hcat
        split at h
        · exact absurd h (by simp)
        · rename_i hser
          split at h
          · exact absurd h (by simp)
          · rename_i hauth
            split at h
            · exact absurd h (by simp)
            · split at h
              · exact absurd h (by simp)
              · push_neg at hauth
                obtain ⟨hnd, hex⟩ := hauth
                refine ⟨(Except.ok.inj h).symm, ?_, ?_, ?_, ?_,
                  by simpa using hnd, ?_⟩
                · intro b hb hbid
                  exact hfresh
                    (by rw [List.any_eq_true]; exact ⟨b, hb, by simp [hbid]⟩)
                · have hany : (db.publishers.any
                      fun p => decide (p.id = input.publisherId)) = true := by
                    cases hval : (db.publishers.any
                        fun p => decide (p.id = input.publisherId))
                    · rw [hval] at hpub; simp at hpub
                    · rfl
                  rw [List.any_eq_true] at hany
                  obtain ⟨p, hp, hp2⟩ := hany
                  exact ⟨p, hp, by simpa using hp2⟩
                · have hany : (db.categories.any
                      fun c => decide (c.id = input.categoryId)) = true := by
                    cases hval : (db.categories.any
                        fun c => decide (c.id = input.categoryId))
                    · rw [hval] at hcat; simp at hcat
                    · rfl
                  rw [List.any_eq_true] at hany
                  obtain ⟨c, hc, hc2⟩ := hany
                  exact ⟨c, hc, by simpa using hc2⟩
                · intro sid hsid
                  rw [hsid] at hser
                  have hser2 : ¬((!db.series.any
                      fun s => decide (s.id = sid)) = true) := hser
                  have hany : (db.series.any
                      fun s => decide (s.id = sid)) = true := by
                    cases hval : (db.series.any fun s => decide (s.id = sid))
                    · rw [hval] at hser2; simp at hser2
                    · rfl
                  rw [List.any_eq_true] at hany
                  obtain ⟨s, hs, hs2⟩ := hany
                  exact ⟨s, hs, by simpa using hs2⟩
                · intro aid haid
                  by_contra hno
                  apply hex
                  rw [List.any_eq_true]
                  refine ⟨aid, haid, ?_⟩
                  push_neg at hno
                  simp only [Bool.not_eq_true']
                  rw [List.any_eq_false]
                  intro a ha
                  simp [hno a ha]

/-! ## Invariants of the import pass -/

/-- The invariant carried through the seven import groups:
well-formedness plus "every series has an author link" (the conditions
the trailing cleanup pass cannot re-establish). -/
def ImpInv (db : DB) : Prop := WellFormed db ∧ SeriesAuthorsOk db

/-- Generic preservation of a predicate by a left fold. -/
theorem foldl_preserve {α β : Type} (f : β → α → β) (P : β → Prop)
    (hstep : ∀ st x, P st → P (f st x)) :
    ∀ (l : List α) (st : β), P st → P (l.foldl f st) := by
  intro l
  induction l with
  | nil => intro st h; simpa using h
  | cons x xs ih =>
      intro st h
      rw [List.foldl_cons]
      exact ih _ (hstep st x h)

/-- Appending a fresh id keeps an id list duplicate-free. -/
theorem nodup_map_append_id (l : List EntityRow) (id name : String)
    (hnd : (l.map EntityRow.id).Nodup) (hfresh : ∀ x ∈ l, x.id ≠ id) :
    ((l ++ [(⟨id, name⟩ : EntityRow)]).map EntityRow.id).Nodup := by
  rw [List.map_append]
  rw [List.nodup_append]
  refine ⟨hnd, by simp, ?_⟩
  intro v hv hv2
  simp only [List.map_cons, List.map_nil, List.mem_singleton] at hv2
  rw [List.mem_map] at hv
  obtain ⟨x, hx, hxid⟩ := hv
  exact hfresh x hx (by rw [hxid, hv2])

/-- A successful category create preserves the import invariant. -/
theorem impInv_createCategory (db : DB) (id name : String) (db1 : DB)
    (hinv : ImpInv db) (h : SimpleRepository.createCategory db id name = .ok db1) :
    ImpInv db1 := by
  obtain ⟨hshape, -⟩ := createCategory_ok_elim db id name db1 h
  subst hshape
  obtain ⟨hwf, hsa⟩ := hinv
  refine ⟨⟨hwf.booksNodup, hwf.authorsNodup, hwf.bookAuthorsNodup,
    hwf.baBook, hwf.bookPublisher, ?_, hwf.bookSeries⟩, hsa⟩
  intro b hb
  obtain ⟨c, hc, hcid⟩ := hwf.bookCategory b hb
  exact ⟨c, List.mem_append_left _ hc, hcid⟩

/-- A successful genre create preserves the import invariant. -/
theorem impInv_createGenre (db : DB) (id name : String) (db1 : DB)
    (hinv : ImpInv db) (h : SimpleRepository.createGenre db id name = .ok db1) :
    ImpInv db1 := by
  obtain ⟨hshape, -⟩ := createGenre_ok_elim db id name db1 h
  subst hshape
  obtain ⟨hwf, hsa⟩ := hinv
  exact ⟨⟨hwf.booksNodup, hwf.authorsNodup, hwf.bookAuthorsNodup,
    hwf.baBook, hwf.bookPublisher, hwf.bookCategory, hwf.bookSeries⟩, hsa⟩

/-- A successful topic create preserves the import invariant. -/
theorem impInv_createTopic (db : DB) (id name : String) (db1 : DB)
    (hinv : ImpInv db) (h : SimpleRepository.createTopic db id name = .ok db1) :
    ImpInv db1 := by
  obtain ⟨hshape, -⟩ := createTopic_ok_elim db id name db1 h
  subst hshape
  obtain ⟨hwf, hsa⟩ := hinv
  exact ⟨⟨hwf.booksNodup, hwf.authorsNodup, hwf.bookAuthorsNodup,
    hwf.baBook, hwf.bookPublisher, hwf.bookCategory, hwf.bookSeries⟩, hsa⟩

/-- A successful author create preserves the import invariant. -/
theorem impInv_createAuthor (db : DB) (id name : String) (db1 : DB)
    (hinv : ImpInv db) (h : AuthorRepository.create db id name = .ok db1) :
    ImpInv db1 := by
  obtain ⟨hshape, hfresh⟩ := authorCreate_ok_elim db id name db1 h
  subst hshape
  obtain ⟨hwf, hsa⟩ := hinv
  exact ⟨⟨hwf.booksNodup,
    nodup_map_append_id db.authors id name hwf.authorsNodup hfresh,
    hwf.bookAuthorsNodup, hwf.baBook, hwf.bookPublisher, hwf.bookCategory,
    hwf.bookSeries⟩, hsa⟩

/-- A successful publisher create preserves the import invariant. -/
theorem impInv_createPublisher (db : DB) (id name : String) (db1 : DB)
    (hinv : ImpInv db) (h : PublisherRepository.create db id name = .ok db1) :
    ImpInv db1 := by
  obtain ⟨hshape, -⟩ := publisherCreate_ok_elim db id name db1 h
  subst hshape
  obtain ⟨hwf, hsa⟩ := hinv
  refine ⟨⟨hwf.booksNodup, hwf.authorsNodup, hwf.bookAuthorsNodup,
    hwf.baBook, ?_, hwf.bookCategory, hwf.bookSeries⟩, hsa⟩
  intro b hb
  obtain ⟨p, hp, hpid⟩ := hwf.bookPublisher b hb
  exact ⟨p, List.mem_append_left _ hp, hpid⟩

/-- A successful series create with a non-empty author list preserves
the import invariant. -/
theorem impInv_createSeries (db : DB) (id name : String)
    (authorIds : List String) (db1 : DB) (hinv : ImpInv db)
    (hne : authorIds ≠ [])
    (h : SeriesRepository.create db id name authorIds = .ok db1) :
    ImpInv db1 := by
  obtain ⟨hshape, -, -, -⟩ := seriesCreate_ok_elim db id name authorIds db1 h
  subst hshape
  obtain ⟨hwf, hsa⟩ := hinv
  refine ⟨⟨hwf.booksNodup, hwf.authorsNodup, hwf.bookAuthorsNodup,
    hwf.baBook, hwf.bookPublisher, hwf.bookCategory, ?_⟩, ?_⟩
  · intro b hb sid hsid
    obtain ⟨s, hs, hsid2⟩ := hwf.bookSeries b hb sid hsid
    exact ⟨s, List.mem_append_left _ hs, hsid2⟩
  · intro s hs
    rw [List.mem_append] at hs
    cases hs with
    | inl hold =>
        obtain ⟨sa, hsa2, hsa1⟩ := hsa s hold
        exact ⟨sa, List.mem_append_left _ hsa2, hsa1⟩
    | inr hnew =>
        rw [List.mem_singleton] at hnew
        subst hnew
        cases hai : authorIds with
        | nil => exact absurd hai hne
        | cons aid rest =>
            refine ⟨(id, aid), ?_, rfl⟩
            apply List.mem_append_right
            simp

/-- A successful book create preserves the import invariant. -/
theorem impInv_createBook (db : DB) (id : String) (input : BookInput)
    (db1 : DB) (hinv : ImpInv db)
    (h : BookRepository.create db id input = .ok db1) : ImpInv db1 := by
  obtain ⟨hshape, hfresh, hpub, hcat, hser, hand, haex⟩ :=
    bookCreate_ok_elim db id input db1 h
  subst hshape
  obtain ⟨hwf, hsa⟩ := hinv
  refine ⟨⟨?_, hwf.authorsNodup, ?_, ?_, ?_, ?_, ?_⟩, hsa⟩
  · rw [List.map_append, List.nodup_append]
    refine ⟨hwf.booksNodup, by simp, ?_⟩
    intro v hv hv2
    simp only [List.map_cons, List.map_nil, List.mem_singleton] at hv2
    rw [List.mem_map] at hv
    obtain ⟨x, hx, hxid⟩ := hv
    exact hfresh x hx (by rw [hxid, hv2])
  · rw [List.nodup_append]
    refine ⟨hwf.bookAuthorsNodup, ?_, ?_⟩
    · exact List.Nodup.map (fun a b hab => by simpa using hab) hand
    · intro r hr hrnew
      obtain ⟨b0, hb0, hb0id⟩ := hwf.baBook r hr
      rw [List.mem_map] at hrnew
      obtain ⟨aid, -, haid⟩ := hrnew
      have : r.1 = id := by rw [← haid]
      exact hfresh b0 hb0 (by rw [hb0id, this])
  · intro r hr
    rw [List.mem_append] at hr
    cases hr with
    | inl hold =>
        obtain ⟨b0, hb0, hb0id⟩ := hwf.baBook r hold
        exact ⟨b0, List.mem_append_left _ hb0, hb0id⟩
    | inr hnew =>
        rw [List.mem_map] at hnew
        obtain ⟨aid, -, haid⟩ := hnew
        refine ⟨⟨id, input.title, input.publisherId, input.seriesId,
          input.categoryId⟩, ?_, by rw [← haid]⟩
        exact List.mem_append_right _ (List.mem_singleton.mpr rfl)
  · intro b hb
    rw [List.mem_append] at hb
    cases hb with
    | inl hold => exact hwf.bookPublisher b hold
    | inr hnew =>
        rw [List.mem_singleton] at hnew
        subst hnew
        exact hpub
  · intro b hb
    rw [List.mem_append] at hb
    cases hb with
    | inl hold => exact hwf.bookCategory b hold
    | inr hnew =>
        rw [List.mem_singleton] at hnew
        subst hnew
        exact hcat
  · intro b hb sid hsid
    rw [List.mem_append] at hb
    cases hb with
    | inl hold => exact hwf.bookSeries b hold sid hsid
    | inr hnew =>
        rw [List.mem_singleton] at hnew
        subst hnew
        exact hser sid hsid

/-- The category import step preserves the import invariant. -/
theorem impInv_categoryStep (st : ImportResult × DB) (c : EntityRow)
    (h : ImpInv st.2) : ImpInv (ImportExportService.importCategoryStep st c).2 := by
  obtain ⟨res, db⟩ := st
  simp only [ImportExportService.importCategoryStep]
  by_cases hskip : (db.categories.any fun x => decide (x.id = c.id)) = true
  · rw [if_pos hskip]; exact h
  · rw [if_neg hskip]
    cases hc : SimpleRepository.createCategory db c.id c.name with
    | ok db1 => exact impInv_createCategory db c.id c.name db1 h hc
    | error e => exact h

/-- The author import step preserves the import invariant. -/
theorem impInv_authorStep (st : ImportResult × DB) (a : EntityRow)
    (h : ImpInv st.2) : ImpInv (ImportExportService.importAuthorStep st a).2 := by
  obtain ⟨res, db⟩ := st
  simp only [ImportExportService.importAuthorStep]
  by_cases hskip : (db.authors.any fun x => decide (x.id = a.id)) = true
  · rw [if_pos hskip]; exact h
  · rw [if_neg hskip]
    cases hc : AuthorRepository.create db a.id a.name with
    | ok db1 => exact impInv_createAuthor db a.id a.name db1 h hc
    | error e => exact h

/-- The publisher import step preserves the import invariant. -/
theorem impInv_publisherStep (st : ImportResult × DB) (p : EntityRow)
    (h : ImpInv st.2) : ImpInv (ImportExportService.importPublisherStep st p).2 := by
  obtain ⟨res, db⟩ := st
  simp only [ImportExportService.importPublisherStep]
  by_cases hskip : (db.publishers.any fun x => decide (x.id = p.id)) = true
  · rw [if_pos hskip]; exact h
  · rw [if_neg hskip]
    cases hc : PublisherRepository.create db p.id p.name with
    | ok db1 => exact impInv_createPublisher db p.id p.name db1 h hc
    | error e => exact h

/-- The genre import step preserves the import invariant. -/
theorem impInv_genreStep (st : ImportResult × DB) (g : EntityRow)
    (h : ImpInv st.2) : ImpInv (ImportExportService.importGenreStep st g).2 := by
  obtain ⟨res, db⟩ := st
  simp only [ImportExportService.importGenreStep]
  by_cases hskip : (db.genres.any fun x => decide (x.id = g.id)) = true
  · rw [if_pos hskip]; exact h
  · rw [if_neg hskip]
    cases hc : SimpleRepository.createGenre db g.id g.name with
    | ok db1 => exact impInv_createGenre db g.id g.name db1 h hc
    | error e => exact h

/-- The topic import step preserves the import invariant. -/
theorem impInv_topicStep (st : ImportResult × DB) (t : EntityRow)
    (h : ImpInv st.2) : ImpInv (ImportExportService.importTopicStep st t).2 := by
  obtain ⟨res, db⟩ := st
  simp only [ImportExportService.importTopicStep]
  by_cases hskip : (db.topics.any fun x => decide (x.id = t.id)) = true
  · rw [if_pos hskip]; exact h
  · rw [if_neg hskip]
    cases hc : SimpleRepository.createTopic db t.id t.name with
    | ok db1 => exact impInv_createTopic db t.id t.name db1 h hc
    | error e => exact h

/-- The series import step preserves the import invariant (the step only
creates a series when the author list is non-empty). -/
theorem impInv_seriesStep (st : ImportResult × DB) (s : BatchSeries)
    (h : ImpInv st.2) : ImpInv (ImportExportService.importSeriesStep st s).2 := by
  obtain ⟨res, db⟩ := st
  simp only [ImportExportService.importSeriesStep]
  by_cases hskip : (db.series.any fun x => decide (x.id = s.id)) = true
  · rw [if_pos hskip]; exact h
  · rw [if_neg hskip]
    by_cases hlen : s.authorIds.length > 0
    · rw [if_pos hlen]
      cases hc : SeriesRepository.create db s.id s.name s.authorIds with
      | ok db1 =>
          refine impInv_createSeries db s.id s.name s.authorIds db1 h ?_ hc
          intro hnil
          rw [hnil] at hlen
          simp at hlen
      | error e => exact h
    · rw [if_neg hlen]; exact h

/-- The book import step preserves the import invariant. -/
theorem impInv_bookStep (st : ImportResult × DB) (b : BatchBook)
    (h : ImpInv st.2) : ImpInv (ImportExportService.importBookStep st b).2 := by
  obtain ⟨res, db⟩ := st
  simp only [ImportExportService.importBookStep]
  by_cases hskip : (db.books.any fun x => decide (x.id = b.id)) = true
  · rw [if_pos hskip]; exact h
  · rw [if_neg hskip]
    cases hc : BookRepository.create db b.id
      ⟨b.title, b.publisherId, b.seriesId, b.categoryId, b.authorIds,
        b.genreIds, b.topicIds⟩ with
    | ok db1 => exact impInv_createBook db b.id _ db1 h hc
    | error e => exact h

/-- The seven import groups preserve the import invariant. -/
theorem impInv_importGroups (data : ExportBatch) (st : ImportResult × DB)
    (h : ImpInv st.2) : ImpInv (ImportExportService.importGroups data st).2 := by
  unfold ImportExportService.importGroups
  exact foldl_preserve _ _ (fun st x => impInv_bookStep st x) data.books _
    (foldl_preserve _ _ (fun st x => impInv_seriesStep st x) data.series _
      (foldl_preserve _ _ (fun st x => impInv_topicStep st x) data.topics _
        (foldl_preserve _ _ (fun st x => impInv_genreStep st x) data.genres _
          (foldl_preserve _ _ (fun st x => impInv_publisherStep st x) data.publishers _
            (foldl_preserve _ _ (fun st x => impInv_authorStep st x) data.authors _
              (foldl_preserve _ _ (fun st x => impInv_categoryStep st x)
                data.categories _ h))))))

/-! ## The cleanup pass when it finds nothing -/

/-- The state component of the import is the cleaned-up group state. -/
theorem importBatch_snd (data : ExportBatch) (db : DB) :
    (ImportExportService.importBatch data db).2 =
      (DomainService.cleanupOrphans
        (ImportExportService.importGroups data (ImportResult.init, db)).2).2 :=
  rfl

/-- Projections of the cleanup result. -/
theorem cleanupOrphans_fst (db : DB) :
    (DomainService.cleanupOrphans db).1 =
      ⟨(DomainService.orphanAuthorsQuery db).map EntityRow.name,
       (DomainService.orphanPublishersQuery
         ((DomainService.orphanAuthorsQuery db).foldl
           (fun d a => d.deleteAuthorRow a.id) db)).map EntityRow.name,
       (DomainService.orphanSeriesQuery
         ((DomainService.orphanPublishersQuery
             ((DomainService.orphanAuthorsQuery db).foldl
               (fun d a => d.deleteAuthorRow a.id) db)).foldl
           (fun d p => d.deletePublisherRow p.id)
           ((DomainService.orphanAuthorsQuery db).foldl
             (fun d a => d.deleteAuthorRow a.id) db))).map EntityRow.name⟩ :=
  rfl

/-- If the orphan sweep reports no deletions, nothing was deleted: the
state is unchanged and all three orphan scans were empty. -/
theorem cleanup_nil_elim (db : DB)
    (h : (DomainService.cleanupOrphans db).1 = ⟨[], [], []⟩) :
    (DomainService.cleanupOrphans db).2 = db ∧
      DomainService.orphanAuthorsQuery db = [] ∧
      DomainService.orphanPublishersQuery db = [] ∧
      DomainService.orphanSeriesQuery db = [] := by
  rw [cleanupOrphans_fst] at h
  have h1 : (DomainService.orphanAuthorsQuery db).map EntityRow.name = [] :=
    congrArg CleanupResult.deletedAuthors h
  rw [List.map_eq_nil] at h1
  have h2 := congrArg CleanupResult.deletedPublishers h
  simp only [] at h2
  rw [h1] at h2
  simp only [List.foldl_nil] at h2
  rw [List.map_eq_nil] at h2
  have h3 := congrArg CleanupResult.deletedSeries h
  simp only [] at h3
  rw [h1] at h3
  simp only [List.foldl_nil] at h3
  rw [h2] at h3
  simp only [List.foldl_nil] at h3
  rw [List.map_eq_nil] at h3
  refine ⟨?_, h1, h2, h3⟩
  show ((DomainService.orphanSeriesQuery _).foldl _ _) = db
  rw [h1]
  simp only [List.foldl_nil]
  rw [h2]
  simp only [List.foldl_nil]
  rw [h3]
  simp only [List.foldl_nil]

/-- If an import reports no errors, the group pass reported none, the
cleanup deleted nothing, and the final state is the group state. -/
theorem importBatch_errors_nil (data : ExportBatch) (db : DB)
    (h : (ImportExportService.importBatch data db).1.errors = []) :
    (ImportExportService.importGroups data (ImportResult.init, db)).1.errors
      = [] ∧
    (DomainService.cleanupOrphans
      (ImportExportService.importGroups data (ImportResult.init, db)).2).1 =
      ⟨[], [], []⟩ ∧
    (ImportExportService.importBatch data db).2 =
      (ImportExportService.importGroups data (ImportResult.init, db)).2 := by
  have hrfl : (ImportExportService.importBatch data db).1.errors =
      (let res := (ImportExportService.importGroups data
        (ImportResult.init, db)).1
      let cleanup := (DomainService.cleanupOrphans
        (ImportExportService.importGroups data (ImportResult.init, db)).2).1
      let errs1 := if cleanup.deletedAuthors.length > 0 then
        res.errors ++ ["Cleaned up " ++ toString cleanup.deletedAuthors.length ++
          " orphan author(s) without books"] else res.errors
      let errs2 := if cleanup.deletedPublishers.length > 0 then
        errs1 ++ ["Cleaned up " ++ toString cleanup.deletedPublishers.length ++
          " orphan publisher(s) without books"] else errs1
      if cleanup.deletedSeries.length > 0 then
        errs2 ++ ["Cleaned up " ++ toString cleanup.deletedSeries.length ++
          " orphan series without books"] else errs2) := rfl
  rw [hrfl] at h
  simp only [] at h
  set cl := (DomainService.cleanupOrphans
    (ImportExportService.importGroups data (ImportResult.init, db)).2).1 with hcl
  set res := (ImportExportService.importGroups data (ImportResult.init, db)).1
    with hres
  by_cases h3 : cl.deletedSeries.length > 0
  · rw [if_pos h3] at h
    exact absurd h (by simp)
  · rw [if_neg h3] at h
    by_cases h2 : cl.deletedPublishers.length > 0
    · rw [if_pos h2] at h
      exact absurd h (by simp)
    · rw [if_neg h2] at h
      by_cases h1 : cl.deletedAuthors.length > 0
      · rw [if_pos h1] at h
        exact absurd h (by simp)
      · rw [if_neg h1] at h
        have hda : cl.deletedAuthors = [] := by
          cases hv : cl.deletedAuthors with
          | nil => rfl
          | cons x xs => rw [hv] at h1; simp at h1
        have hdp : cl.deletedPublishers = [] := by
          cases hv : cl.deletedPublishers with
          | nil => rfl
          | cons x xs => rw [hv] at h2; simp at h2
        have hds : cl.deletedSeries = [] := by
          cases hv : cl.deletedSeries with
          | nil => rfl
          | cons x xs => rw [hv] at h3; simp at h3
        have hclnil : cl = ⟨[], [], []⟩ := by
          cases hc : cl
          simp only [hc] at hda hdp hds
          simp [hda, hdp, hds]
        refine ⟨h, hclnil, ?_⟩
        rw [importBatch_snd]
        exact (cleanup_nil_elim _ hclnil).1

/-- An import that reports no errors preserves well-formedness and
leaves a fully valid store. -/
theorem valid_importBatch (data : ExportBatch) (db : DB) (hinv : ImpInv db)
    (herr : (ImportExportService.importBatch data db).1.errors = []) :
    ImpInv (ImportExportService.importBatch data db).2 ∧
      Valid (ImportExportService.importBatch data db).2 := by
  obtain ⟨hge, hcl, hsnd⟩ := importBatch_errors_nil data db herr
  have hinv7 : ImpInv (ImportExportService.importGroups data
      (ImportResult.init, db)).2 :=
    impInv_importGroups data (ImportResult.init, db) hinv
  obtain ⟨hid, hqa, hqp, hqs⟩ := cleanup_nil_elim _ hcl
  rw [hsnd]
  refine ⟨hinv7, ?_⟩
  obtain ⟨hwf, hsa⟩ := hinv7
  exact ⟨(orphanAuthorsQuery_eq_nil _).mp hqa,
    (orphanPublishersQuery_eq_nil _).mp hqp,
    (orphanSeriesQuery_eq_nil _).mp hqs, hsa, hwf.bookPublisher,
    hwf.bookCategory⟩

/-! ## Claim C1 -/

/-- The lifecycle operations of the amended invariant-preservation
claim.  `updateBook` and `deleteBook` with cascade are deliberately
absent: the counterexample shows they break the invariant. -/
inductive LibOp where
  | delBook (id : String)
  | delAuthor (id : String)
  | delPublisher (id : String)
  | delSeries (id : String)
  | cleanup
  | importB (data : ExportBatch)

/-- One lifecycle call completing without error: deletes must return ok
(with `cascadeOrphans = false` for books), the orphan sweep always
completes, and an import completes without error when its errors list
is empty. -/
def stepOk (db : DB) (op : LibOp) (db2 : DB) : Prop :=
  match op with
  | .delBook id => BookRepository.delete db id false = .ok db2
  | .delAuthor id => AuthorRepository.delete db id = .ok db2
  | .delPublisher id => PublisherRepository.delete db id = .ok db2
  | .delSeries id => SeriesRepository.delete db id = .ok db2
  | .cleanup => (DomainService.cleanupOrphans db).2 = db2
  | .importB data => (ImportExportService.importBatch data db).2 = db2 ∧
      (ImportExportService.importBatch data db).1.errors = []

/-- A sequence of lifecycle calls that all complete without error. -/
inductive Run : DB → List LibOp → DB → Prop where
  | nil (db : DB) : Run db [] db
  | cons {db db2 db3 : DB} {op : LibOp} {ops : List LibOp} :
      stepOk db op db2 → Run db2 ops db3 → Run db (op :: ops) db3

/-- One error-free lifecycle step preserves well-formedness and the six
integrity conditions. -/
theorem step_preserves (db : DB) (op : LibOp) (db2 : DB)
    (hwf : WellFormed db) (hv : Valid db) (h : stepOk db op db2) :
    WellFormed db2 ∧ Valid db2 := by
  cases op with
  | delBook id =>
      obtain ⟨hv2, hwf2⟩ := valid_deleteBook db id db2 hwf hv h
      exact ⟨hwf2, hv2⟩
  | delAuthor id => exact absurd h (fun h => valid_no_deleteAuthor db id db2 hv h)
  | delPublisher id =>
      exact absurd h (fun h => valid_no_deletePublisher db id db2 hv h)
  | delSeries id => exact absurd h (fun h => valid_no_deleteSeries db id db2 hv h)
  | cleanup =>
      have hident := cleanup_valid_identity db hv
      have : db2 = db := by
        have := congrArg Prod.snd hident
        simp only [] at this
        rw [← h, this]
      rw [this]
      exact ⟨hwf, hv⟩
  | importB data =>
      obtain ⟨hstate, herr⟩ := h
      obtain ⟨⟨hwf2, hsa2⟩, hv2⟩ :=
        valid_importBatch data db ⟨hwf, hv.2.2.2.1⟩ herr
      rw [← hstate]
      exact ⟨hwf2, hv2⟩

/-- A sequence of error-free lifecycle calls preserves well-formedness
and the six integrity conditions. -/
theorem run_preserves (db : DB) (ops : List LibOp) (db2 : DB)
    (hrun : Run db ops db2) :
    WellFormed db → Valid db → WellFormed db2 ∧ Valid db2 := by
  induction hrun with
  | nil db => exact fun hwf hv => ⟨hwf, hv⟩
  | cons hstep hrest ih =>
      intro hwf hv
      obtain ⟨hwf2, hv2⟩ := step_preserves _ _ _ hwf hv hstep
      exact ih hwf2 hv2

/-- Claim C1 (amended): starting from a schema-consistent store on which
`integrityCheck().isValid` is true, every sequence of `deleteBook`
(without cascade), `deleteAuthor`, `deletePublisher`, `deleteSeries`,
`cleanupOrphans` and `importBatch` (completing with an empty errors
list) calls that all complete without error leaves
`integrityCheck().isValid` true.  The original claim also covered
`updateBook` and cascading book deletes; the counterexample shows the
engine violates the invariant for those. -/
theorem claim_C1 (db : DB) (ops : List LibOp) (db2 : DB)
    (hwf : WellFormed db)
    (hvalid : (DomainService.integrityCheck db).isValid = true)
    (hrun : Run db ops db2) :
    (DomainService.integrityCheck db2).isValid = true := by
  rw [isValid_iff] at hvalid ⊢
  exact (run_preserves db ops db2 hrun hwf hvalid).2

/-- A minimal valid store: one book by one author. -/
def dbC1 : DB :=
  { books := [⟨"b1", "B", "p1", none, "c1"⟩]
    authors := [⟨"a1", "A"⟩]
    publishers := [⟨"p1", "P"⟩]
    series := []
    genres := []
    topics := []
    categories := [⟨"c1", "C"⟩]
    bookAuthors := [("b1", "a1")]
    bookGenres := []
    bookTopics := []
    seriesAuthors := [] }

/-- Claim C1 (corrected), counterexample: from a valid store, a single
`updateBook` call without cascade that removes the book's only author
completes without error (the update path never blocks on impact), and
afterwards `integrityCheck().isValid` is false — the author is
orphaned.  So the claimed invariant preservation fails for sequences
containing `updateBook`. -/
theorem claim_C1_cex :
    (DomainService.integrityCheck dbC1).isValid = true ∧
    BookRepository.update dbC1 "b1" sampleInput false =
      .ok { dbC1 with
        books := [⟨"b1", "X", "p1", none, "c1"⟩], bookAuthors := [] } ∧
    (DomainService.integrityCheck { dbC1 with
      books := [⟨"b1", "X", "p1", none, "c1"⟩],
      bookAuthors := [] }).isValid = false := by
  refine ⟨by decide, by decide, by decide⟩

/-- Witness for the amended C1: a valid two-book store, one error-free
non-cascade `deleteBook` call, validity preserved. -/
theorem claim_C1_witness :
    WellFormed dbC2 ∧
    (DomainService.integrityCheck dbC2).isValid = true ∧
    (DomainService.integrityCheck (dbC2.deleteBookRow "b2")).isValid = true := by
  have hwf : WellFormed dbC2 := by constructor <;> decide
  refine ⟨hwf, by decide, ?_⟩
  exact claim_C1 dbC2 [LibOp.delBook "b2"] (dbC2.deleteBookRow "b2") hwf
    (by decide)
    (Run.cons (show BookRepository.delete dbC2 "b2" false =
      .ok (dbC2.deleteBookRow "b2") by decide) (Run.nil _))

/-! ## Claim C7: machinery -/

/-- The primary tables only grow during the import groups. -/
def Grows (d1 d2 : DB) : Prop :=
  (∀ x ∈ d1.categories, x ∈ d2.categories) ∧
  (∀ x ∈ d1.authors, x ∈ d2.authors) ∧
  (∀ x ∈ d1.publishers, x ∈ d2.publishers) ∧
  (∀ x ∈ d1.genres, x ∈ d2.genres) ∧
  (∀ x ∈ d1.topics, x ∈ d2.topics) ∧
  (∀ x ∈ d1.series, x ∈ d2.series) ∧
  (∀ x ∈ d1.books, x ∈ d2.books)

/-- Growth is reflexive. -/
theorem Grows.refl (d : DB) : Grows d d :=
  ⟨fun _ h => h, fun _ h => h, fun _ h => h, fun _ h => h, fun _ h => h,
    fun _ h => h, fun _ h => h⟩

/-- Growth is transitive. -/
theorem Grows.trans {d1 d2 d3 : DB} (h1 : Grows d1 d2) (h2 : Grows d2 d3) :
    Grows d1 d3 :=
  ⟨fun x h => h2.1 x (h1.1 x h),
   fun x h => h2.2.1 x (h1.2.1 x h),
   fun x h => h2.2.2.1 x (h1.2.2.1 x h),
   fun x h => h2.2.2.2.1 x (h1.2.2.2.1 x h),
   fun x h => h2.2.2.2.2.1 x (h1.2.2.2.2.1 x h),
   fun x h => h2.2.2.2.2.2.1 x (h1.2.2.2.2.2.1 x h),
   fun x h => h2.2.2.2.2.2.2 x (h1.2.2.2.2.2.2 x h)⟩

/-- Appending rows to some tables grows the store. -/
theorem grows_of_append (d1 d2 : DB)
    (hc : ∃ l, d2.categories = d1.categories ++ l)
    (ha : ∃ l, d2.authors = d1.authors ++ l)
    (hp : ∃ l, d2.publishers = d1.publishers ++ l)
    (hg : ∃ l, d2.genres = d1.genres ++ l)
    (ht : ∃ l, d2.topics = d1.topics ++ l)
    (hs : ∃ l, d2.series = d1.series ++ l)
    (hb : ∃ l, d2.books = d1.books ++ l) : Grows d1 d2 := by
  obtain ⟨lc, hc⟩ := hc
  obtain ⟨la, ha⟩ := ha
  obtain ⟨lp, hp⟩ := hp
  obtain ⟨lg, hg⟩ := hg
  obtain ⟨lt, ht⟩ := ht
  obtain ⟨ls, hs⟩ := hs
  obtain ⟨lb, hb⟩ := hb
  refine ⟨?_, ?_, ?_, ?_, ?_, ?_, ?_⟩ <;>
    intro x hx <;>
    simp only [hc, ha, hp, hg, ht, hs, hb] <;>
    exact List.mem_append_left _ hx

/-- Every import step grows the store. -/
theorem grows_categoryStep (st : ImportResult × DB) (c : EntityRow) :
    Grows st.2 (ImportExportService.importCategoryStep st c).2 := by
  simp only [ImportExportService.importCategoryStep]
  split
  · exact Grows.refl _
  · cases hc : SimpleRepository.createCategory st.2 c.id c.name with
    | ok db1 =>
        obtain ⟨hshape, -⟩ := createCategory_ok_elim _ _ _ _ hc
        subst hshape
        exact grows_of_append _ _ ⟨_, rfl⟩ ⟨[], by simp⟩ ⟨[], by simp⟩
          ⟨[], by simp⟩ ⟨[], by simp⟩ ⟨[], by simp⟩ ⟨[], by simp⟩
    | error e => exact Grows.refl _

/-- Every import step grows the store. -/
theorem grows_authorStep (st : ImportResult × DB) (a : EntityRow) :
    Grows st.2 (ImportExportService.importAuthorStep st a).2 := by
  simp only [ImportExportService.importAuthorStep]
  split
  · exact Grows.refl _
  · cases hc : AuthorRepository.create st.2 a.id a.name with
    | ok db1 =>
        obtain ⟨hshape, -⟩ := authorCreate_ok_elim _ _ _ _ hc
        subst hshape
        exact grows_of_append _ _ ⟨[], by simp⟩ ⟨_, rfl⟩ ⟨[], by simp⟩
          ⟨[], by simp⟩ ⟨[], by simp⟩ ⟨[], by simp⟩ ⟨[], by simp⟩
    | error e => exact Grows.refl _

/-- Every import step grows the store. -/
theorem grows_publisherStep (st : ImportResult × DB) (p : EntityRow) :
    Grows st.2 (ImportExportService.importPublisherStep st p).2 := by
  simp only [ImportExportService.importPublisherStep]
  split
  · exact Grows.refl _
  · cases hc : PublisherRepository.create st.2 p.id p.name with
    | ok db1 =>
        obtain ⟨hshape, -⟩ := publisherCreate_ok_elim _ _ _ _ hc
        subst hshape
        exact grows_of_append _ _ ⟨[], by simp⟩ ⟨[], by simp⟩ ⟨_, rfl⟩
          ⟨[], by simp⟩ ⟨[], by simp⟩ ⟨[], by simp⟩ ⟨[], by simp⟩
    | error e => exact Grows.refl _

/-- Every import step grows the store. -/
theorem grows_genreStep (st : ImportResult × DB) (g : EntityRow) :
    Grows st.2 (ImportExportService.importGenreStep st g).2 := by
  simp only [ImportExportService.importGenreStep]
  split
  · exact Grows.refl _
  · cases hc : SimpleRepository.createGenre st.2 g.id g.name with
    | ok db1 =>
        obtain ⟨hshape, -⟩ := createGenre_ok_elim _ _ _ _ hc
        subst hshape
        exact grows_of_append _ _ ⟨[], by simp⟩ ⟨[], by simp⟩ ⟨[], by simp⟩
          ⟨_, rfl⟩ ⟨[], by simp⟩ ⟨[], by simp⟩ ⟨[], by simp⟩
    | error e => exact Grows.refl _

/-- Every import step grows the store. -/
theorem grows_topicStep (st : ImportResult × DB) (t : EntityRow) :
    Grows st.2 (ImportExportService.importTopicStep st t).2 := by
  simp only [ImportExportService.importTopicStep]
  split
  · exact Grows.refl _
  · cases hc : SimpleRepository.createTopic st.2 t.id t.name with
    | ok db1 =>
        obtain ⟨hshape, -⟩ := createTopic_ok_elim _ _ _ _ hc
        subst hshape
        exact grows_of_append _ _ ⟨[], by simp⟩ ⟨[], by simp⟩ ⟨[], by simp⟩
          ⟨[], by simp⟩ ⟨_, rfl⟩ ⟨[], by simp⟩ ⟨[], by simp⟩
    | error e => exact Grows.refl _

/-- Every import step grows the store. -/
theorem grows_seriesStep (st : ImportResult × DB) (s : BatchSeries) :
    Grows st.2 (ImportExportService.importSeriesStep st s).2 := by
  simp only [ImportExportService.importSeriesStep]
  split
  · exact Grows.refl _
  · split
    · cases hc : SeriesRepository.create st.2 s.id s.name s.authorIds with
      | ok db1 =>
          obtain ⟨hshape, -, -, -⟩ := seriesCreate_ok_elim _ _ _ _ _ hc
          subst hshape
          exact grows_of_append _ _ ⟨[], by simp⟩ ⟨[], by simp⟩ ⟨[], by simp⟩
            ⟨[], by simp⟩ ⟨[], by simp⟩ ⟨_, rfl⟩ ⟨[], by simp⟩
      | error e => exact Grows.refl _
    · exact Grows.refl _

/-- Every import step grows the store. -/
theorem grows_bookStep (st : ImportResult × DB) (b : BatchBook) :
    Grows st.2 (ImportExportService.importBookStep st b).2 := by
  simp only [ImportExportService.importBookStep]
  split
  · exact Grows.refl _
  · cases hc : BookRepository.create st.2 b.id
      ⟨b.title, b.publisherId, b.seriesId, b.categoryId, b.authorIds,
        b.genreIds, b.topicIds⟩ with
    | ok db1 =>
        obtain ⟨hshape, -, -, -, -, -, -⟩ := bookCreate_ok_elim _ _ _ _ hc
        subst hshape
        exact grows_of_append _ _ ⟨[], by simp⟩ ⟨[], by simp⟩ ⟨[], by simp⟩
          ⟨[], by simp⟩ ⟨[], by simp⟩ ⟨[], by simp⟩ ⟨_, rfl⟩
    | error e => exact Grows.refl _

/-- A fold of growing steps grows the store. -/
theorem foldl_grows {α : Type} (f : ImportResult × DB → α → ImportResult × DB)
    (hstep : ∀ st x, Grows st.2 (f st x).2) :
    ∀ (l : List α) (st : ImportResult × DB), Grows st.2 (l.foldl f st).2 := by
  intro l
  induction l with
  | nil => intro st; exact Grows.refl _
  | cons x xs ih =>
      intro st
      rw [List.foldl_cons]
      exact (hstep st x).trans (ih (f st x))

/-- The whole group pass grows the store. -/
theorem grows_importGroups (data : ExportBatch) (st : ImportResult × DB) :
    Grows st.2 (ImportExportService.importGroups data st).2 := by
  unfold ImportExportService.importGroups
  refine Grows.trans (foldl_grows _ grows_categoryStep data.categories st) ?_
  refine Grows.trans (foldl_grows _ grows_authorStep data.authors _) ?_
  refine Grows.trans (foldl_grows _ grows_publisherStep data.publishers _) ?_
  refine Grows.trans (foldl_grows _ grows_genreStep data.genres _) ?_
  refine Grows.trans (foldl_grows _ grows_topicStep data.topics _) ?_
  refine Grows.trans (foldl_grows _ grows_seriesStep data.series _) ?_
  exact foldl_grows _ grows_bookStep data.books _

/-- Error lists only ever grow along a fold of such steps. -/
theorem foldl_errors_extend {α : Type}
    (f : ImportResult × DB → α → ImportResult × DB)
    (hstep : ∀ st x, ∃ t, (f st x).1.errors = st.1.errors ++ t) :
    ∀ (l : List α) (st : ImportResult × DB),
      ∃ t, (l.foldl f st).1.errors = st.1.errors ++ t := by
  intro l
  induction l with
  | nil => intro st; exact ⟨[], by simp⟩
  | cons x xs ih =>
      intro st
      rw [List.foldl_cons]
      obtain ⟨t1, ht1⟩ := hstep st x
      obtain ⟨t2, ht2⟩ := ih (f st x)
      exact ⟨t1 ++ t2, by rw [ht2, ht1, List.append_assoc]⟩

/-- The category step only appends to the error list. -/
theorem errext_categoryStep (st : ImportResult × DB) (c : EntityRow) :
    ∃ t, (ImportExportService.importCategoryStep st c).1.errors =
      st.1.errors ++ t := by
  simp only [ImportExportService.importCategoryStep]
  split
  · exact ⟨[], by simp⟩
  · cases SimpleRepository.createCategory st.2 c.id c.name with
    | ok db1 => exact ⟨[], by simp⟩
    | error e => exact ⟨_, rfl⟩

/-- The author step only appends to the error list. -/
theorem errext_authorStep (st : ImportResult × DB) (a : EntityRow) :
    ∃ t, (ImportExportService.importAuthorStep st a).1.errors =
      st.1.errors ++ t := by
  simp only [ImportExportService.importAuthorStep]
  split
  · exact ⟨[], by simp⟩
  · cases AuthorRepository.create st.2 a.id a.name with
    | ok db1 => exact ⟨[], by simp⟩
    | error e => exact ⟨_, rfl⟩

/-- The publisher step only appends to the error list. -/
theorem errext_publisherStep (st : ImportResult × DB) (p : EntityRow) :
    ∃ t, (ImportExportService.importPublisherStep st p).1.errors =
      st.1.errors ++ t := by
  simp only [ImportExportService.importPublisherStep]
  split
  · exact ⟨[], by simp⟩
  · cases PublisherRepository.create st.2 p.id p.name with
    | ok db1 => exact ⟨[], by simp⟩
    | error e => exact ⟨_, rfl⟩

/-- The genre step only appends to the error list. -/
theorem errext_genreStep (st : ImportResult × DB) (g : EntityRow) :
    ∃ t, (ImportExportService.importGenreStep st g).1.errors =
      st.1.errors ++ t := by
  simp only [ImportExportService.importGenreStep]
  split
  · exact ⟨[], by simp⟩
  · cases SimpleRepository.createGenre st.2 g.id g.name with
    | ok db1 => exact ⟨[], by simp⟩
    | error e => exact ⟨_, rfl⟩

/-- The topic step only appends to the error list. -/
theorem errext_topicStep (st : ImportResult × DB) (t0 : EntityRow) :
    ∃ t, (ImportExportService.importTopicStep st t0).1.errors =
      st.1.errors ++ t := by
  simp only [ImportExportService.importTopicStep]
  split
  · exact ⟨[], by simp⟩
  · cases SimpleRepository.createTopic st.2 t0.id t0.name with
    | ok db1 => exact ⟨[], by simp⟩
    | error e => exact ⟨_, rfl⟩

/-- The series step only appends to the error list. -/
theorem errext_seriesStep (st : ImportResult × DB) (s : BatchSeries) :
    ∃ t, (ImportExportService.importSeriesStep st s).1.errors =
      st.1.errors ++ t := by
  simp only [ImportExportService.importSeriesStep]
  split
  · exact ⟨[], by simp⟩
  · split
    · cases SeriesRepository.create st.2 s.id s.name s.authorIds with
      | ok db1 => exact ⟨[], by simp⟩
      | error e => exact ⟨_, rfl⟩
    · exact ⟨[], by simp⟩

/-- The book step only appends to the error list. -/
theorem errext_bookStep (st : ImportResult × DB) (b : BatchBook) :
    ∃ t, (ImportExportService.importBookStep st b).1.errors =
      st.1.errors ++ t := by
  simp only [ImportExportService.importBookStep]
  split
  · exact ⟨[], by simp⟩
  · cases BookRepository.create st.2 b.id
      ⟨b.title, b.publisherId, b.seriesId, b.categoryId, b.authorIds,
        b.genreIds, b.topicIds⟩ with
    | ok db1 => exact ⟨[], by simp⟩
    | error e => exact ⟨_, rfl⟩

/-- A batch record is settled when a row with its id is in the table. -/
def SettledEnt (table : List EntityRow) (r : EntityRow) : Prop :=
  ∃ x ∈ table, x.id = r.id

/-- Boolean bridge for the settled check. -/
theorem any_id_iff (l : List EntityRow) (v : String) :
    (l.any fun x => decide (x.id = v)) = true ↔ ∃ x ∈ l, x.id = v := by
  rw [List.any_eq_true]
  simp

/-- After an error-free category group, every category of the group is
settled in the resulting store. -/
theorem catFold_settles :
    ∀ (l : List EntityRow) (st : ImportResult × DB),
    (l.foldl ImportExportService.importCategoryStep st).1.errors = [] →
    ∀ c ∈ l,
      SettledEnt (l.foldl ImportExportService.importCategoryStep st).2.categories
        c := by
  intro l
  induction l with
  | nil => intro st h c hc; cases hc
  | cons c0 cs ih =>
      intro st herr c hc
      rw [List.foldl_cons] at herr ⊢
      rcases List.mem_cons.mp hc with hc0 | hc2
      · subst hc0
        have hstep : SettledEnt
            (ImportExportService.importCategoryStep st c).2.categories c := by
          simp only [ImportExportService.importCategoryStep]
          by_cases hskip : (st.2.categories.any fun x => decide (x.id = c.id)) = true
          · rw [if_pos hskip]
            exact (any_id_iff _ _).mp hskip
          · rw [if_neg hskip]
            cases hcr : SimpleRepository.createCategory st.2 c.id c.name with
            | ok db1 =>
                obtain ⟨hshape, -⟩ := createCategory_ok_elim _ _ _ _ hcr
                subst hshape
                exact ⟨⟨c.id, c.name⟩,
                  List.mem_append_right _ (List.mem_singleton.mpr rfl), rfl⟩
            | error e =>
                exfalso
                obtain ⟨t, ht⟩ := foldl_errors_extend _ errext_categoryStep cs
                  (ImportExportService.importCategoryStep st c)
                rw [herr] at ht
                have : (ImportExportService.importCategoryStep st c).1.errors
                    = [] := (List.append_eq_nil.mp ht.symm).1
                simp only [ImportExportService.importCategoryStep] at this
                rw [if_neg hskip, hcr] at this
                simp at this
        obtain ⟨x, hx, hxid⟩ := hstep
        exact ⟨x, (foldl_grows _ grows_categoryStep cs _).1 x hx, hxid⟩
      · exact ih _ herr c hc2

/-- After an error-free author group, every author of the group is
settled. -/
theorem authorFold_settles :
    ∀ (l : List EntityRow) (st : ImportResult × DB),
    (l.foldl ImportExportService.importAuthorStep st).1.errors = [] →
    ∀ a ∈ l,
      SettledEnt (l.foldl ImportExportService.importAuthorStep st).2.authors
        a := by
  intro l
  induction l with
  | nil => intro st h a ha; cases ha
  | cons a0 as ih =>
      intro st herr a ha
      rw [List.foldl_cons] at herr ⊢
      rcases List.mem_cons.mp ha with ha0 | ha2
      · subst ha0
        have hstep : SettledEnt
            (ImportExportService.importAuthorStep st a).2.authors a := by
          simp only [ImportExportService.importAuthorStep]
          by_cases hskip : (st.2.authors.any fun x => decide (x.id = a.id)) = true
          · rw [if_pos hskip]
            exact (any_id_iff _ _).mp hskip
          · rw [if_neg hskip]
            cases hcr : AuthorRepository.create st.2 a.id a.name with
            | ok db1 =>
                obtain ⟨hshape, -⟩ := authorCreate_ok_elim _ _ _ _ hcr
                subst hshape
                exact ⟨⟨a.id, a.name⟩,
                  List.mem_append_right _ (List.mem_singleton.mpr rfl), rfl⟩
            | error e =>
                exfalso
                obtain ⟨t, ht⟩ := foldl_errors_extend _ errext_authorStep as
                  (ImportExportService.importAuthorStep st a)
                rw [herr] at ht
                have : (ImportExportService.importAuthorStep st a).1.errors
                    = [] := (List.append_eq_nil.mp ht.symm).1
                simp only [ImportExportService.importAuthorStep] at this
                rw [if_neg hskip, hcr] at this
                simp at this
        obtain ⟨x, hx, hxid⟩ := hstep
        exact ⟨x, (foldl_grows _ grows_authorStep as _).2.1 x hx, hxid⟩
      · exact ih _ herr a ha2

/-- After an error-free publisher group, every publisher of the group is
settled. -/
theorem publisherFold_settles :
    ∀ (l : List EntityRow) (st : ImportResult × DB),
    (l.foldl ImportExportService.importPublisherStep st).1.errors = [] →
    ∀ p ∈ l,
      SettledEnt (l.foldl ImportExportService.importPublisherStep st).2.publishers
        p := by
  intro l
  induction l with
  | nil => intro st h p hp; cases hp
  | cons p0 ps ih =>
      intro st herr p hp
      rw [List.foldl_cons] at herr ⊢
      rcases List.mem_cons.mp hp with hp0 | hp2
      · subst hp0
        have hstep : SettledEnt
            (ImportExportService.importPublisherStep st p).2.publishers p := by
          simp only [ImportExportService.importPublisherStep]
          by_cases hskip : (st.2.publishers.any fun x => decide (x.id = p.id)) = true
          · rw [if_pos hskip]
            exact (any_id_iff _ _).mp hskip
          · rw [if_neg hskip]
            cases hcr : PublisherRepository.create st.2 p.id p.name with
            | ok db1 =>
                obtain ⟨hshape, -⟩ := publisherCreate_ok_elim _ _ _ _ hcr
                subst hshape
                exact ⟨⟨p.id, p.name⟩,
                  List.mem_append_right _ (List.mem_singleton.mpr rfl), rfl⟩
            | error e =>
                exfalso
                obtain ⟨t, ht⟩ := foldl_errors_extend _ errext_publisherStep ps
                  (ImportExportService.importPublisherStep st p)
                rw [herr] at ht
                have : (ImportExportService.importPublisherStep st p).1.errors
                    = [] := (List.append_eq_nil.mp ht.symm).1
                simp only [ImportExportService.importPublisherStep] at this
                rw [if_neg hskip, hcr] at this
                simp at this
        obtain ⟨x, hx, hxid⟩ := hstep
        exact ⟨x, (foldl_grows _ grows_publisherStep ps _).2.2.1 x hx, hxid⟩
      · exact ih _ herr p hp2

/-- After an error-free genre group, every genre of the group is
settled. -/
theorem genreFold_settles :
    ∀ (l : List EntityRow) (st : ImportResult × DB),
    (l.foldl ImportExportService.importGenreStep st).1.errors = [] →
    ∀ g ∈ l,
      SettledEnt (l.foldl ImportExportService.importGenreStep st).2.genres
        g := by
  intro l
  induction l with
  | nil => intro st h g hg; cases hg
  | cons g0 gs ih =>
      intro st herr g hg
      rw [List.foldl_cons] at herr ⊢
      rcases List.mem_cons.mp hg with hg0 | hg2
      · subst hg0
        have hstep : SettledEnt
            (ImportExportService.importGenreStep st g).2.genres g := by
          simp only [ImportExportService.importGenreStep]
          by_cases hskip : (st.2.genres.any fun x => decide (x.id = g.id)) = true
          · rw [if_pos hskip]
            exact (any_id_iff _ _).mp hskip
          · rw [if_neg hskip]
            cases hcr : SimpleRepository.createGenre st.2 g.id g.name with
            | ok db1 =>
                obtain ⟨hshape, -⟩ := createGenre_ok_elim _ _ _ _ hcr
                subst hshape
                exact ⟨⟨g.id, g.name⟩,
                  List.mem_append_right _ (List.mem_singleton.mpr rfl), rfl⟩
            | error e =>
                exfalso
                obtain ⟨t, ht⟩ := foldl_errors_extend _ errext_genreStep gs
                  (ImportExportService.importGenreStep st g)
                rw [herr] at ht
                have : (ImportExportService.importGenreStep st g).1.errors
                    = [] := (List.append_eq_nil.mp ht.symm).1
                simp only [ImportExportService.importGenreStep] at this
                rw [if_neg hskip, hcr] at this
                simp at this
        obtain ⟨x, hx, hxid⟩ := hstep
        exact ⟨x, (foldl_grows _ grows_genreStep gs _).2.2.2.1 x hx, hxid⟩
      · exact ih _ herr g hg2

/-- After an error-free topic group, every topic of the group is
settled. -/
theorem topicFold_settles :
    ∀ (l : List EntityRow) (st : ImportResult × DB),
    (l.foldl ImportExportService.importTopicStep st).1.errors = [] →
    ∀ t0 ∈ l,
      SettledEnt (l.foldl ImportExportService.importTopicStep st).2.topics
        t0 := by
  intro l
  induction l with
  | nil => intro st h t0 ht0; cases ht0
  | cons x0 xs ih =>
      intro st herr t0 ht0
      rw [List.foldl_cons] at herr ⊢
      rcases List.mem_cons.mp ht0 with hx0 | hx2
      · subst hx0
        have hstep : SettledEnt
            (ImportExportService.importTopicStep st t0).2.topics t0 := by
          simp only [ImportExportService.importTopicStep]
          by_cases hskip : (st.2.topics.any fun x => decide (x.id = t0.id)) = true
          · rw [if_pos hskip]
            exact (any_id_iff _ _).mp hskip
          · rw [if_neg hskip]
            cases hcr : SimpleRepository.createTopic st.2 t0.id t0.name with
            | ok db1 =>
                obtain ⟨hshape, -⟩ := createTopic_ok_elim _ _ _ _ hcr
                subst hshape
                exact ⟨⟨t0.id, t0.name⟩,
                  List.mem_append_right _ (List.mem_singleton.mpr rfl), rfl⟩
            | error e =>
                exfalso
                obtain ⟨t, ht⟩ := foldl_errors_extend _ errext_topicStep xs
                  (ImportExportService.importTopicStep st t0)
                rw [herr] at ht
                have : (ImportExportService.importTopicStep st t0).1.errors
                    = [] := (List.append_eq_nil.mp ht.symm).1
                simp only [ImportExportService.importTopicStep] at this
                rw [if_neg hskip, hcr] at this
                simp at this
        obtain ⟨x, hx, hxid⟩ := hstep
        exact ⟨x, (foldl_grows _ grows_topicStep xs _).2.2.2.2.1 x hx, hxid⟩
      · exact ih _ herr t0 hx2

/-- A series batch record is settled when a row with its id exists or
its author list is empty (it will be skipped silently either way). -/
def SettledSeries (db : DB) (s : BatchSeries) : Prop :=
  (∃ x ∈ db.series, x.id = s.id) ∨ s.authorIds = []

/-- After an error-free series group, every series of the group is
settled. -/
theorem seriesFold_settles :
    ∀ (l : List BatchSeries) (st : ImportResult × DB),
    (l.foldl ImportExportService.importSeriesStep st).1.errors = [] →
    ∀ s ∈ l,
      SettledSeries (l.foldl ImportExportService.importSeriesStep st).2 s := by
  intro l
  induction l with
  | nil => intro st h s hs; cases hs
  | cons s0 ss ih =>
      intro st herr s hs
      rw [List.foldl_cons] at herr ⊢
      rcases List.mem_cons.mp hs with hs0 | hs2
      · subst hs0
        have hstep : SettledSeries
            (ImportExportService.importSeriesStep st s).2 s := by
          simp only [ImportExportService.importSeriesStep]
          by_cases hskip : (st.2.series.any fun x => decide (x.id = s.id)) = true
          · rw [if_pos hskip]
            exact Or.inl ((any_id_iff _ _).mp hskip)
          · rw [if_neg hskip]
            by_cases hlen : s.authorIds.length > 0
            · rw [if_pos hlen]
              cases hcr : SeriesRepository.create st.2 s.id s.name s.authorIds with
              | ok db1 =>
                  obtain ⟨hshape, -, -, -⟩ := seriesCreate_ok_elim _ _ _ _ _ hcr
                  subst hshape
                  exact Or.inl ⟨⟨s.id, s.name⟩,
                    List.mem_append_right _ (List.mem_singleton.mpr rfl), rfl⟩
              | error e =>
                  exfalso
                  obtain ⟨t, ht⟩ := foldl_errors_extend _ errext_seriesStep ss
                    (ImportExportService.importSeriesStep st s)
                  rw [herr] at ht
                  have : (ImportExportService.importSeriesStep st s).1.errors
                      = [] := (List.append_eq_nil.mp ht.symm).1
                  simp only [ImportExportService.importSeriesStep] at this
                  rw [if_neg hskip, if_pos hlen, hcr] at this
                  simp at this
            · rw [if_neg hlen]
              refine Or.inr ?_
              cases hsa : s.authorIds with
              | nil => rfl
              | cons y ys => rw [hsa] at hlen; simp at hlen
        cases hstep with
        | inl hpresent =>
            obtain ⟨x, hx, hxid⟩ := hpresent
            exact Or.inl ⟨x,
              (foldl_grows _ grows_seriesStep ss _).2.2.2.2.2.1 x hx, hxid⟩
        | inr hempty => exact Or.inr hempty
      · exact ih _ herr s hs2

/-- A book batch record is settled when a row with its id exists. -/
def SettledBook (db : DB) (b : BatchBook) : Prop :=
  ∃ x ∈ db.books, x.id = b.id

/-- After an error-free book group, every book of the group is
settled. -/
theorem bookFold_settles :
    ∀ (l : List BatchBook) (st : ImportResult × DB),
    (l.foldl ImportExportService.importBookStep st).1.errors = [] →
    ∀ b ∈ l,
      SettledBook (l.foldl ImportExportService.importBookStep st).2 b := by
  intro l
  induction l with
  | nil => intro st h b hb; cases hb
  | cons b0 bs ih =>
      intro st herr b hb
      rw [List.foldl_cons] at herr ⊢
      rcases List.mem_cons.mp hb with hb0 | hb2
      · subst hb0
        have hstep : SettledBook
            (ImportExportService.importBookStep st b).2 b := by
          simp only [ImportExportService.importBookStep]
          by_cases hskip : (st.2.books.any fun x => decide (x.id = b.id)) = true
          · rw [if_pos hskip]
            rw [List.any_eq_true] at hskip
            obtain ⟨x, hx, hxid⟩ := hskip
            exact ⟨x, hx, by simpa using hxid⟩
          · rw [if_neg hskip]
            cases hcr : BookRepository.create st.2 b.id
              ⟨b.title, b.publisherId, b.seriesId, b.categoryId, b.authorIds,
                b.genreIds, b.topicIds⟩ with
            | ok db1 =>
                obtain ⟨hshape, -, -, -, -, -, -⟩ := bookCreate_ok_elim _ _ _ _ hcr
                subst hshape
                exact ⟨⟨b.id, b.title, b.publisherId, b.seriesId, b.categoryId⟩,
                  List.mem_append_right _ (List.mem_singleton.mpr rfl), rfl⟩
            | error e =>
                exfalso
                obtain ⟨t, ht⟩ := foldl_errors_extend _ errext_bookStep bs
                  (ImportExportService.importBookStep st b)
                rw [herr] at ht
                have : (ImportExportService.importBookStep st b).1.errors
                    = [] := (List.append_eq_nil.mp ht.symm).1
                simp only [ImportExportService.importBookStep] at this
                rw [if_neg hskip, hcr] at this
                simp at this
        obtain ⟨x, hx, hxid⟩ := hstep
        exact ⟨x, (foldl_grows _ grows_bookStep bs _).2.2.2.2.2.2 x hx, hxid⟩
      · exact ih _ herr b hb2

/-- A settled category record is skipped: the step is the identity. -/
theorem categoryStep_skip (st : ImportResult × DB) (c : EntityRow)
    (h : SettledEnt st.2.categories c) :
    ImportExportService.importCategoryStep st c = st := by
  simp only [ImportExportService.importCategoryStep]
  rw [if_pos ((any_id_iff _ _).mpr h)]

/-- A settled author record is skipped. -/
theorem authorStep_skip (st : ImportResult × DB) (a : EntityRow)
    (h : SettledEnt st.2.authors a) :
    ImportExportService.importAuthorStep st a = st := by
  simp only [ImportExportService.importAuthorStep]
  rw [if_pos ((any_id_iff _ _).mpr h)]

/-- A settled publisher record is skipped. -/
theorem publisherStep_skip (st : ImportResult × DB) (p : EntityRow)
    (h : SettledEnt st.2.publishers p) :
    ImportExportService.importPublisherStep st p = st := by
  simp only [ImportExportService.importPublisherStep]
  rw [if_pos ((any_id_iff _ _).mpr h)]

/-- A settled genre record is skipped. -/
theorem genreStep_skip (st : ImportResult × DB) (g : EntityRow)
    (h : SettledEnt st.2.genres g) :
    ImportExportService.importGenreStep st g = st := by
  simp only [ImportExportService.importGenreStep]
  rw [if_pos ((any_id_iff _ _).mpr h)]

/-- A settled topic record is skipped. -/
theorem topicStep_skip (st : ImportResult × DB) (t0 : EntityRow)
    (h : SettledEnt st.2.topics t0) :
    ImportExportService.importTopicStep st t0 = st := by
  simp only [ImportExportService.importTopicStep]
  rw [if_pos ((any_id_iff _ _).mpr h)]

/-- A settled series record is skipped. -/
theorem seriesStep_skip (st : ImportResult × DB) (s : BatchSeries)
    (h : SettledSeries st.2 s) :
    ImportExportService.importSeriesStep st s = st := by
  simp only [ImportExportService.importSeriesStep]
  cases h with
  | inl hpresent => rw [if_pos ((any_id_iff _ _).mpr hpresent)]
  | inr hempty =>
      by_cases hskip : (st.2.series.any fun x => decide (x.id = s.id)) = true
      · rw [if_pos hskip]
      · rw [if_neg hskip]
        rw [if_neg]
        rw [hempty]
        simp

/-- A settled book record is skipped. -/
theorem bookStep_skip (st : ImportResult × DB) (b : BatchBook)
    (h : SettledBook st.2 b) :
    ImportExportService.importBookStep st b = st := by
  simp only [ImportExportService.importBookStep]
  rw [if_pos]
  rw [List.any_eq_true]
  obtain ⟨x, hx, hxid⟩ := h
  exact ⟨x, hx, by simp [hxid]⟩

/-- A fold over settled records is the identity. -/
theorem foldl_skip {α : Type} (f : ImportResult × DB → α → ImportResult × DB)
    (P : DB → α → Prop) (hskip : ∀ st x, P st.2 x → f st x = st) :
    ∀ (l : List α) (st : ImportResult × DB), (∀ x ∈ l, P st.2 x) →
      l.foldl f st = st := by
  intro l
  induction l with
  | nil => intro st h; rfl
  | cons x xs ih =>
      intro st h
      rw [List.foldl_cons, hskip st x (h x (List.mem_cons_self _ _))]
      exact ih st (fun y hy => h y (List.mem_cons_of_mem _ hy))

/-- When every batch record is already settled, the whole group pass is
the identity. -/
theorem importGroups_skip (data : ExportBatch) (st : ImportResult × DB)
    (hc : ∀ c ∈ data.categories, SettledEnt st.2.categories c)
    (ha : ∀ a ∈ data.authors, SettledEnt st.2.authors a)
    (hp : ∀ p ∈ data.publishers, SettledEnt st.2.publishers p)
    (hg : ∀ g ∈ data.genres, SettledEnt st.2.genres g)
    (ht : ∀ t0 ∈ data.topics, SettledEnt st.2.topics t0)
    (hs : ∀ s ∈ data.series, SettledSeries st.2 s)
    (hb : ∀ b ∈ data.books, SettledBook st.2 b) :
    ImportExportService.importGroups data st = st := by
  simp only [ImportExportService.importGroups]
  rw [foldl_skip _ (fun d c => SettledEnt d.categories c) categoryStep_skip
    data.categories st hc]
  rw [foldl_skip _ (fun d a => SettledEnt d.authors a) authorStep_skip
    data.authors st ha]
  rw [foldl_skip _ (fun d p => SettledEnt d.publishers p) publisherStep_skip
    data.publishers st hp]
  rw [foldl_skip _ (fun d g => SettledEnt d.genres g) genreStep_skip
    data.genres st hg]
  rw [foldl_skip _ (fun d t0 => SettledEnt d.topics t0) topicStep_skip
    data.topics st ht]
  rw [foldl_skip _ SettledSeries seriesStep_skip data.series st hs]
  rw [foldl_skip _ SettledBook bookStep_skip data.books st hb]

/-- When all three orphan scans are empty, the orphan sweep is the
identity. -/
theorem cleanup_nil_intro (db : DB)
    (h1 : DomainService.orphanAuthorsQuery db = [])
    (h2 : DomainService.orphanPublishersQuery db = [])
    (h3 : DomainService.orphanSeriesQuery db = []) :
    DomainService.cleanupOrphans db = (⟨[], [], []⟩, db) := by
  unfold DomainService.cleanupOrphans
  rw [h1]
  simp only [List.foldl_nil]
  rw [h2]
  simp only [List.foldl_nil]
  rw [h3]
  simp only [List.foldl_nil, List.map_nil]

/-- When the group pass is the identity and the sweep finds nothing, the
whole import returns the pristine result on the unchanged store. -/
theorem importBatch_id_of (data : ExportBatch) (db : DB)
    (hg : ImportExportService.importGroups data (ImportResult.init, db) =
      (ImportResult.init, db))
    (hc : DomainService.cleanupOrphans db = (⟨[], [], []⟩, db)) :
    ImportExportService.importBatch data db =
      ({ ImportResult.init with errors := [], success := true }, db) := by
  have hg1 : (ImportExportService.importGroups data (ImportResult.init, db)).1 =
      ImportResult.init := by rw [hg]
  have hg2 : (ImportExportService.importGroups data (ImportResult.init, db)).2 =
      db := by rw [hg]
  simp only [ImportExportService.importBatch]
  rw [hg1, hg2, hc]
  simp [ImportResult.init]

/-! ## Claim C7 -/

/-- Claim C7 (amended): if a first import of a batch reports no errors
(so every record was inserted or skipped and the trailing cleanup
deleted nothing), importing the same batch again leaves the store
unchanged and reports zero imported records of every kind.  The
original unconditional claim fails: the first run's cleanup pass can
delete records it just inserted, which a second run then re-imports
with non-zero counts. -/
theorem claim_C7 (data : ExportBatch) (db0 : DB)
    (herr : (ImportExportService.importBatch data db0).1.errors = []) :
    (ImportExportService.importBatch data
      (ImportExportService.importBatch data db0).2).2 =
      (ImportExportService.importBatch data db0).2 ∧
    (ImportExportService.importBatch data
      (ImportExportService.importBatch data db0).2).1 =
      { ImportResult.init with errors := [], success := true } ∧
    (ImportExportService.importBatch data
      (ImportExportService.importBatch data db0).2).1.booksImported = 0 ∧
    (ImportExportService.importBatch data
      (ImportExportService.importBatch data db0).2).1.authorsImported = 0 ∧
    (ImportExportService.importBatch data
      (ImportExportService.importBatch data db0).2).1.publishersImported = 0 ∧
    (ImportExportService.importBatch data
      (ImportExportService.importBatch data db0).2).1.seriesImported = 0 ∧
    (ImportExportService.importBatch data
      (ImportExportService.importBatch data db0).2).1.genresImported = 0 ∧
    (ImportExportService.importBatch data
      (ImportExportService.importBatch data db0).2).1.topicsImported = 0 ∧
    (ImportExportService.importBatch data
      (ImportExportService.importBatch data db0).2).1.categoriesImported = 0 := by
  obtain ⟨hge, hcl, hsnd⟩ := importBatch_errors_nil data db0 herr
  set q1 := data.categories.foldl ImportExportService.importCategoryStep
    (ImportResult.init, db0) with hq1def
  set q2 := data.authors.foldl ImportExportService.importAuthorStep q1
    with hq2def
  set q3 := data.publishers.foldl ImportExportService.importPublisherStep q2
    with hq3def
  set q4 := data.genres.foldl ImportExportService.importGenreStep q3
    with hq4def
  set q5 := data.topics.foldl ImportExportService.importTopicStep q4
    with hq5def
  set q6 := data.series.foldl ImportExportService.importSeriesStep q5
    with hq6def
  set q7 := data.books.foldl ImportExportService.importBookStep q6
    with hq7def
  have hgroups_eq : ImportExportService.importGroups data
      (ImportResult.init, db0) = q7 := rfl
  rw [hgroups_eq] at hge hcl hsnd
  have he6 : q6.1.errors = [] := by
    obtain ⟨t, ht⟩ := foldl_errors_extend _ errext_bookStep data.books q6
    rw [← hq7def, hge] at ht
    exact (List.append_eq_nil.mp ht.symm).1
  have he5 : q5.1.errors = [] := by
    obtain ⟨t, ht⟩ := foldl_errors_extend _ errext_seriesStep data.series q5
    rw [← hq6def, he6] at ht
    exact (List.append_eq_nil.mp ht.symm).1
  have he4 : q4.1.errors = [] := by
    obtain ⟨t, ht⟩ := foldl_errors_extend _ errext_topicStep data.topics q4
    rw [← hq5def, he5] at ht
    exact (List.append_eq_nil.mp ht.symm).1
  have he3 : q3.1.errors = [] := by
    obtain ⟨t, ht⟩ := foldl_errors_extend _ errext_genreStep data.genres q3
    rw [← hq4def, he4] at ht
    exact (List.append_eq_nil.mp ht.symm).1
  have he2 : q2.1.errors = [] := by
    obtain ⟨t, ht⟩ := foldl_errors_extend _ errext_publisherStep data.publishers q2
    rw [← hq3def, he3] at ht
    exact (List.append_eq_nil.mp ht.symm).1
  have he1 : q1.1.errors = [] := by
    obtain ⟨t, ht⟩ := foldl_errors_extend _ errext_authorStep data.authors q1
    rw [← hq2def, he2] at ht
    exact (List.append_eq_nil.mp ht.symm).1
  have hg12 : Grows q1.2 q2.2 := foldl_grows _ grows_authorStep data.authors q1
  have hg23 : Grows q2.2 q3.2 :=
    foldl_grows _ grows_publisherStep data.publishers q2
  have hg34 : Grows q3.2 q4.2 := foldl_grows _ grows_genreStep data.genres q3
  have hg45 : Grows q4.2 q5.2 := foldl_grows _ grows_topicStep data.topics q4
  have hg56 : Grows q5.2 q6.2 := foldl_grows _ grows_seriesStep data.series q5
  have hg67 : Grows q6.2 q7.2 := foldl_grows _ grows_bookStep data.books q6
  have hg17 : Grows q1.2 q7.2 :=
    hg12.trans (hg23.trans (hg34.trans (hg45.trans (hg56.trans hg67))))
  have hg27 : Grows q2.2 q7.2 :=
    hg23.trans (hg34.trans (hg45.trans (hg56.trans hg67)))
  have hg37 : Grows q3.2 q7.2 := hg34.trans (hg45.trans (hg56.trans hg67))
  have hg47 : Grows q4.2 q7.2 := hg45.trans (hg56.trans hg67)
  have hg57 : Grows q5.2 q7.2 := hg56.trans hg67
  have hsetc : ∀ c ∈ data.categories, SettledEnt q7.2.categories c := by
    intro c hc
    obtain ⟨x, hx, hxid⟩ :=
      catFold_settles data.categories (ImportResult.init, db0) he1 c hc
    exact ⟨x, hg17.1 x hx, hxid⟩
  have hseta : ∀ a ∈ data.authors, SettledEnt q7.2.authors a := by
    intro a ha
    obtain ⟨x, hx, hxid⟩ := authorFold_settles data.authors q1 he2 a ha
    exact ⟨x, hg27.2.1 x hx, hxid⟩
  have hsetp : ∀ p ∈ data.publishers, SettledEnt q7.2.publishers p := by
    intro p hp
    obtain ⟨x, hx, hxid⟩ := publisherFold_settles data.publishers q2 he3 p hp
    exact ⟨x, hg37.2.2.1 x hx, hxid⟩
  have hsetg : ∀ g ∈ data.genres, SettledEnt q7.2.genres g := by
    intro g hg
    obtain ⟨x, hx, hxid⟩ := genreFold_settles data.genres q3 he4 g hg
    exact ⟨x, hg47.2.2.2.1 x hx, hxid⟩
  have hsett : ∀ t0 ∈ data.topics, SettledEnt q7.2.topics t0 := by
    intro t0 ht0
    obtain ⟨x, hx, hxid⟩ := topicFold_settles data.topics q4 he5 t0 ht0
    exact ⟨x, hg57.2.2.2.2.1 x hx, hxid⟩
  have hsets : ∀ s ∈ data.series, SettledSeries q7.2 s := by
    intro s hs
    rcases seriesFold_settles data.series q5 he6 s hs with hpresent | hempty
    · obtain ⟨x, hx, hxid⟩ := hpresent
      exact Or.inl ⟨x, hg67.2.2.2.2.2.1 x hx, hxid⟩
    · exact Or.inr hempty
  have hsetb : ∀ b ∈ data.books, SettledBook q7.2 b :=
    fun b hb => bookFold_settles data.books q6 hge b hb
  obtain ⟨-, hqa, hqp, hqs⟩ := cleanup_nil_elim q7.2 hcl
  have hcleanid : DomainService.cleanupOrphans q7.2 = (⟨[], [], []⟩, q7.2) :=
    cleanup_nil_intro q7.2 hqa hqp hqs
  have hg2run : ImportExportService.importGroups data
      (ImportResult.init, q7.2) = (ImportResult.init, q7.2) :=
    importGroups_skip data (ImportResult.init, q7.2) hsetc hseta hsetp hsetg
      hsett hsets hsetb
  have hfinal := importBatch_id_of data q7.2 hg2run hcleanid
  rw [hsnd, hfinal]
  exact ⟨rfl, rfl, rfl, rfl, rfl, rfl, rfl, rfl, rfl⟩

/-- A batch with a single author and no books. -/
def batchC7 : ExportBatch :=
  { categories := [], authors := [⟨"a1", "A"⟩], publishers := [], genres := [],
    topics := [], series := [], books := [] }

/-- Claim C7 (corrected), counterexample: importing a batch holding one
author (and no books) into an empty store imports the author, but the
trailing cleanup deletes the freshly inserted orphan; the second run of
the same batch therefore re-imports them, so the second run's
`authorsImported` is 1, not 0. -/
theorem claim_C7_cex :
    (ImportExportService.importBatch batchC7 DB.empty).1.authorsImported = 1 ∧
    (ImportExportService.importBatch batchC7
      (ImportExportService.importBatch batchC7 DB.empty).2).1.authorsImported
      = 1 := by
  refine ⟨by decide, by decide⟩

/-- A batch whose single book keeps all of its dependencies alive, so
the first import reports no errors. -/
def batchC7ok : ExportBatch :=
  { categories := [⟨"c1", "C"⟩]
    authors := [⟨"a1", "A"⟩]
    publishers := [⟨"p1", "P"⟩]
    genres := []
    topics := []
    series := []
    books := [⟨"b1", "B", "p1", none, "c1", ["a1"], [], []⟩] }

/-- Witness for the amended C7 at a concrete batch. -/
theorem claim_C7_witness :
    ((ImportExportService.importBatch batchC7ok DB.empty).1.errors = []) ∧
    (ImportExportService.importBatch batchC7ok
      (ImportExportService.importBatch batchC7ok DB.empty).2).2 =
      (ImportExportService.importBatch batchC7ok DB.empty).2 ∧
    (ImportExportService.importBatch batchC7ok
      (ImportExportService.importBatch batchC7ok DB.empty).2).1.authorsImported
      = 0 :=
  ⟨by decide,
    (claim_C7 batchC7ok DB.empty (by decide)).1,
    (claim_C7 batchC7ok DB.empty (by decide)).2.2.2.1⟩
